import Mathlib

/-!
Verification of the earnings-data reconciliation, summarization and route
logic of the contra-ai web application, shallowly embedded in Lean.

Conventions of the embedding:
* Calendar dates that the TypeScript code handles as `YYYY-MM-DD` strings
  (and normalizes through `new Date(s).toISOString().split('T')[0]`) are
  represented by their epoch-day number (an `Int`); normalization is then
  the identity and two date strings are equal exactly when their day
  numbers are.  Raw timestamps are epoch milliseconds (`Int`), one day
  being 86400000 ms.
* JavaScript string values that may be `undefined`/`null` are `Option
  String`; JS truthiness of such a value (`if (x)`) is `strTruthy`:
  the value is present and is not the empty string.
* JS objects used as string-keyed dictionaries are association lists with
  `alookup` / `aset`; `Array.prototype.sort` (stable since ES2019) is the
  stable insertion sort `sortByKey`.
* Prices are rationals (`Rat`), standing for the finite decimal numbers
  that `parseFloat` produces on the provider's price strings.
-/
/-- JS truthiness of a possibly-absent string value: present and non-empty. -/
def strTruthy : Option String → Bool
  | none => false
  | some s => !(s = "")

/-- The JS idiom `x || null` on a possibly-absent string: keep a truthy value,
collapse `undefined`/`''` to `null`. -/
def orNull (o : Option String) : Option String :=
  if strTruthy o then o else none

/-- Association-list lookup (model of reading a key of a JS object). -/
def alookup {κ α : Type} [DecidableEq κ] : List (κ × α) → κ → Option α
  | [], _ => none
  | (k, a) :: l, k' => if k' = k then some a else alookup l k'

/-- Association-list write (model of assigning a key of a JS object /
`Map.prototype.set`): replace in place if the key is present, else append. -/
def aset {κ α : Type} [DecidableEq κ] : List (κ × α) → κ → α → List (κ × α)
  | [], k, a => [(k, a)]
  | (k0, a0) :: l, k, a =>
      if k = k0 then (k0, a) :: l else (k0, a0) :: aset l k a

/-- Decimal digit character (models number formatting in JS template strings). -/
def digitChar (n : Nat) : Char := Char.ofNat (48 + n)

/-- Fuel-driven recursion computing the decimal digits of a natural number,
most significant first (the fuel only serves structural termination and is
irrelevant once it exceeds the number). -/
def natDigitsF : Nat → Nat → List Char
  | 0, _ => []
  | fuel + 1, n =>
      if n < 10 then [digitChar n]
      else natDigitsF fuel (n / 10) ++ [digitChar (n % 10)]

/-- The decimal digits of a natural number, most significant first: the
character list of JavaScript `n.toString()` for a nonnegative integer. -/
def natDigits (n : Nat) : List Char := natDigitsF (n + 1) n

/-- The last `k` elements of a list: JavaScript `String.prototype.slice(-k)`
on the underlying character list. -/
def lastK {α : Type} (l : List α) (k : Nat) : List α := l.drop (l.length - k)

/-- One step of stable insertion: the new element passes elements with a
strictly smaller key and stops in front of the first element whose key is
`≥` its own.  `sortByKey` inserts from the right, so among equal keys the
element that came first in the input stays first. -/
def insertByKey {α : Type} (key : α → Int) (a : α) : List α → List α
  | [] => [a]
  | b :: l => if key b < key a then b :: insertByKey key a l else a :: b :: l

/-- Stable sort ascending by an integer key: the model of
`Array.prototype.sort((x, y) => key(x) - key(y))` (stable per ES2019). -/
def sortByKey {α : Type} (key : α → Int) : List α → List α
  | [] => []
  | a :: l => insertByKey key a (sortByKey key l)

/-! ## Fiscal-period labels (C3)

Both the earnings-calendar reconciler
(`src/app/api/calendar/earnings/route.ts`, lines 195-198 and 236-239) and the
agent / watchlist-marker code (`formatEarningsLabel`) derive a label from a
parsed date by
  `quarter = Math.floor(date.getMonth() / 3) + 1`
  `fiscalYear = date.getFullYear().toString().slice(-2)`
  `label = "Q" + quarter + " FY" + fiscalYear`
`getMonth()` is the 0-indexed calendar month, `getFullYear()` the calendar
year; both functions are embedded on those components. -/
/-- Label derivation of the earnings-calendar reconciler, on the parsed
date's calendar year and 0-indexed month. -/
def reconcilerLabel (year : Nat) (month0 : Fin 12) : String :=
  String.mk ('Q' :: natDigits (month0.1 / 3 + 1) ++
    ' ' :: 'F' :: 'Y' :: lastK (natDigits year) 2)

/-- The agent's `formatEarningsLabel` (and the identical helper of the
watchlist earnings-marker route), on the parsed date's components. -/
def formatEarningsLabel (year : Nat) (month0 : Fin 12) : String :=
  String.mk ('Q' :: natDigits (month0.1 / 3 + 1) ++
    ' ' :: 'F' :: 'Y' :: lastK (natDigits year) 2)

/-- The label shape asserted by the specification: `Q{1..4}FY{two digits}`,
with no separator between the quarter and the `FY` part. -/
def claimedLabelForm (s : String) : Prop :=
  ∃ q : Fin 4, ∃ d1 d2 : Fin 10,
    s = String.mk ['Q', digitChar (q.1 + 1), 'F', 'Y',
      digitChar d1.1, digitChar d2.1]

instance (s : String) : Decidable (claimedLabelForm s) := by
  unfold claimedLabelForm
  infer_instance

/-! ## Civil-calendar conversion

`new Date(ms)` exposes its calendar components through `getFullYear` /
`getMonth` / `getDate`; the embedding computes them from the epoch-day
number with the standard civil-from-days algorithm (all dates are treated
as UTC).  The inverse direction is used by the chart routes' `setMonth` /
`setFullYear` mutations. -/
/-- Calendar components (year, month 1..12, day-of-month 1..31) of an
epoch-day number. -/
def civilFromDays (z0 : Int) : Int × Nat × Nat :=
  let z := z0 + 719468
  let era := z.fdiv 146097
  let doe := (z - era * 146097).toNat
  let yoe := (doe - doe / 1460 + doe / 36524 - doe / 146096) / 365
  let y := (yoe : Int) + era * 400
  let doy := doe - (365 * yoe + yoe / 4 - yoe / 100)
  let mp := (5 * doy + 2) / 153
  let d := doy - (153 * mp + 2) / 5 + 1
  let m := if mp < 10 then mp + 3 else mp - 9
  (if m ≤ 2 then y + 1 else y, m, d)

/-- Epoch-day number of calendar components (year, month 1..12, day-of-month);
a day-of-month beyond the month's end rolls over exactly as JavaScript's
`Date` setters normalize it. -/
def daysFromCivil (y0 : Int) (m : Nat) (d : Nat) : Int :=
  let y := if m ≤ 2 then y0 - 1 else y0
  let era := y.fdiv 400
  let yoe := (y - era * 400).toNat
  let mp := if 2 < m then m - 3 else m + 9
  let doy := (153 * mp + 2) / 5 + d - 1
  let doe := yoe * 365 + yoe / 4 - yoe / 100 + doy
  era * 146097 + (doe : Int) - 719468

/-- Milliseconds per day. -/
def msPerDay : Int := 86400000

/-! ## Earnings/calendar reconciler (src/app/api/calendar/earnings/route.ts)

The route fetches, per watchlist ticker, the EARNINGS_CALENDAR CSV feed and
the EARNINGS JSON feed, builds two lookup maps and a flat entry list from
the history, resolves the EPS fields of every calendar row, emits the
history entries as events too, and deduplicates everything by
(normalized date, ticker).  Date strings are embedded as epoch-day numbers
(normalization is then the identity), and `now` enters the pipeline already
truncated to midnight (`now.setHours(0,0,0,0)`) as a day number. -/
/-- One parsed entry of `earningsData.quarterlyEarnings`. -/
structure QEarning where
  fiscalDateEnding : Option Int
  reportedDate : Option Int
  estimatedEPS : Option String
  reportedEPS : Option String
deriving DecidableEq

/-- Value stored in the two history lookup maps (the additionally stored
date field of the source is never read downstream and is omitted). -/
structure EpsInfo where
  estimatedEPS : Option String
  reportedEPS : Option String
deriving DecidableEq

/-- One element of `allEarningsEntries`: its `day` is
`earnings.reportedDate || earnings.fiscalDateEnding`, which the later
scans re-parse as `entry.reportDate`. -/
structure AllEntry where
  day : Int
  estimatedEPS : Option String
  reportedEPS : Option String
deriving DecidableEq

/-- The per-ticker reconciliation context: the two lookup maps, the flat
entry list, and today's midnight as a day number. -/
structure ReconCtx where
  mapByReportDate : List (Int × EpsInfo)
  mapByFiscal : List (Int × EpsInfo)
  allEntries : List AllEntry
  nowDay : Int
deriving DecidableEq

/-- Folding step of the map-building `forEach` over `quarterlyEarnings`. -/
def buildStep (ctx : ReconCtx) (q : QEarning) : ReconCtx :=
  let reportedDay := match q.reportedDate with
    | some d => some d
    | none => q.fiscalDateEnding
  let ctx1 := match q.fiscalDateEnding with
    | some fd =>
        { ctx with
            mapByFiscal := aset ctx.mapByFiscal fd ⟨q.estimatedEPS, q.reportedEPS⟩ }
    | none => ctx
  let ctx2 := match reportedDay with
    | some rd =>
        { ctx1 with
            mapByReportDate := aset ctx1.mapByReportDate rd ⟨q.estimatedEPS, q.reportedEPS⟩ }
    | none => ctx1
  match reportedDay with
  | some d =>
      { ctx2 with
          allEntries := ctx2.allEntries ++ [⟨d, q.estimatedEPS, q.reportedEPS⟩] }
  | none => ctx2

/-- Builds the reconciliation context from the parsed history feed. -/
def buildReconCtx (nowDay : Int) (qs : List QEarning) : ReconCtx :=
  qs.foldl buildStep ⟨[], [], [], nowDay⟩

/-- One parsed calendar CSV row: report-date and fiscal-date cells (absent
or empty cells, and an absent estimated-EPS column, are `none`). -/
structure CalRow where
  reportDay : Option Int
  fiscalDay : Option Int
  estimatedRaw : Option String
deriving DecidableEq

/-- The date of a calendar row: report date preferred, else fiscal date. -/
def rowDay (row : CalRow) : Option Int :=
  match row.reportDay with
  | some d => some d
  | none => row.fiscalDay

/-- The past/future classification shared by both feeds:
`earningsDate < now` after both are truncated to midnight, on day numbers. -/
def isPastDay (d nowDay : Int) : Bool := d < nowDay

/-- Whitespace test of `String.prototype.trim`. -/
def isWsChar (c : Char) : Bool :=
  c = ' ' || c = '\t' || c = '\n' || c = '\r'

/-- JavaScript `String.prototype.trim`: strip leading and trailing
whitespace. -/
def jsTrim (s : String) : String :=
  String.mk (((s.data.dropWhile isWsChar).reverse.dropWhile isWsChar).reverse)

/-- EPS resolution step (1): the calendar row's own estimated-EPS cell,
trimmed, accepted when non-empty and neither `N/A` nor `null`. -/
def estStage1 (row : CalRow) : Option String :=
  match row.estimatedRaw with
  | none => none
  | some s =>
      if s = "" then none
      else if jsTrim s ≠ "" ∧ jsTrim s ≠ "N/A" ∧ jsTrim s ≠ "null" then
        some (jsTrim s)
      else none

/-- EPS resolution step (2), estimate: look up the history map keyed by the
row's normalized date; only fills a still-falsy estimate. -/
def estStage2 (ctx : ReconCtx) (row : CalRow) (d : Int) : Option String :=
  match alookup ctx.mapByReportDate d with
  | some info =>
      if strTruthy (estStage1 row) then estStage1 row
      else orNull info.estimatedEPS
  | none => estStage1 row

/-- EPS resolution step (2), reported: the same lookup assigns
`reportedEPS` unconditionally (it is the first assignment). -/
def repStage2 (ctx : ReconCtx) (d : Int) : Option String :=
  match alookup ctx.mapByReportDate d with
  | some info => orNull info.reportedEPS
  | none => none

/-- EPS resolution step (3), estimate: the fiscal-date map, guarded by the
row having a fiscal date; only fills a still-falsy estimate. -/
def estStage3 (ctx : ReconCtx) (row : CalRow) (d : Int) : Option String :=
  match row.fiscalDay with
  | some fd =>
      match alookup ctx.mapByFiscal fd with
      | some info =>
          if strTruthy (estStage2 ctx row d) then estStage2 ctx row d
          else orNull info.estimatedEPS
      | none => estStage2 ctx row d
  | none => estStage2 ctx row d

/-- EPS resolution step (3), reported: the fiscal-date map, only filling a
still-falsy reported EPS. -/
def repStage3 (ctx : ReconCtx) (row : CalRow) (d : Int) : Option String :=
  match row.fiscalDay with
  | some fd =>
      match alookup ctx.mapByFiscal fd with
      | some info =>
          if strTruthy (repStage2 ctx d) then repStage2 ctx d
          else orNull info.reportedEPS
      | none => repStage2 ctx d
  | none => repStage2 ctx d

/-- A usable reported EPS for the 5-day scan: truthy and neither the
literal `None` nor `null`. -/
def usableRep (e : AllEntry) : Bool :=
  strTruthy e.reportedEPS && !(e.reportedEPS = some "None") &&
    !(e.reportedEPS = some "null")

/-- The 5-day-scan predicate of step (4): report day within 5 days of the
row's date (the `Math.abs(msDiff / 86400000) <= 5` test on midnight dates)
and a usable reported EPS. -/
def within5Pred (d : Int) (e : AllEntry) : Bool :=
  (d - e.day).natAbs ≤ 5 && usableRep e

/-- EPS resolution step (4): for a past event still missing a reported EPS,
scan `allEarningsEntries` in order and take the first entry matching
`within5Pred`. -/
def repStage4 (ctx : ReconCtx) (row : CalRow) (d : Int) : Option String :=
  let r := repStage3 ctx row d
  if isPastDay d ctx.nowDay && !strTruthy r && !ctx.allEntries.isEmpty then
    match ctx.allEntries.find? (within5Pred d) with
    | some e => e.reportedEPS
    | none => r
  else r

/-- The step-(5) predicate: a usable estimate (truthy, not `None`/`null`)
whose entry date is in the future or less than 90 days in the past. -/
def futureEstPred (nowDay : Int) (e : AllEntry) : Bool :=
  (strTruthy e.estimatedEPS && !(e.estimatedEPS = some "None") &&
    !(e.estimatedEPS = some "null")) &&
  (nowDay ≤ e.day || nowDay - e.day < 90)

/-- EPS resolution step (5): for a future event still missing an estimate,
sort the entries by date, most recent first (stably, as `Array.sort`), and
take the first one matching `futureEstPred`. -/
def estStage5 (ctx : ReconCtx) (row : CalRow) (d : Int) : Option String :=
  let est := estStage3 ctx row d
  if !strTruthy est && !isPastDay d ctx.nowDay && !ctx.allEntries.isEmpty then
    match (sortByKey (fun e => -e.day) ctx.allEntries).find?
        (futureEstPred ctx.nowDay) with
    | some e => e.estimatedEPS
    | none => est
  else est

/-- The complete EPS resolution of one calendar row with date `d`:
(estimated, reported). -/
def resolveEPSAt (ctx : ReconCtx) (row : CalRow) (d : Int) :
    Option String × Option String :=
  (estStage5 ctx row d, repStage4 ctx row d)

/-- Derived earnings event (the route's `EarningsEvent` shape, dates as day
numbers). -/
structure EarningsEvent where
  ticker : String
  companyName : String
  reportDay : Int
  fiscalDateEnding : Option Int
  label : String
  estimatedEPS : Option String
  reportedEPS : Option String
  isPast : Bool
deriving DecidableEq

/-- The reconciler's label for an event date given as a day number
(the `Q{quarter} FY{yy}` template on the parsed date's components). -/
def labelOfDay (d : Int) : String :=
  let c := civilFromDays d
  let m0 := c.2.1 - 1
  String.mk ('Q' :: natDigits (m0 / 3 + 1) ++
    ' ' :: 'F' :: 'Y' :: lastK (natDigits c.1.toNat) 2)

/-- The event pushed for one calendar CSV row (`none` when the row has
neither a report date nor a fiscal date and is skipped). -/
def mkCalendarEvent (ticker companyName : String) (ctx : ReconCtx)
    (row : CalRow) : Option EarningsEvent :=
  match rowDay row with
  | none => none
  | some d =>
      some
        { ticker := ticker
          companyName := companyName
          reportDay := d
          fiscalDateEnding := row.fiscalDay
          label := labelOfDay d
          estimatedEPS := (resolveEPSAt ctx row d).1
          reportedEPS := (resolveEPSAt ctx row d).2
          isPast := isPastDay d ctx.nowDay }

/-- The event pushed for one historical quarterly entry (lines 186-212 of
the route; `none` when the entry has no date at all). -/
def mkHistoryEvent (ticker companyName : String) (nowDay : Int)
    (q : QEarning) : Option EarningsEvent :=
  match (match q.reportedDate with
         | some d => some d
         | none => q.fiscalDateEnding) with
  | none => none
  | some d =>
      some
        { ticker := ticker
          companyName := companyName
          reportDay := d
          fiscalDateEnding := q.fiscalDateEnding
          label := labelOfDay d
          estimatedEPS := orNull q.estimatedEPS
          reportedEPS := orNull q.reportedEPS
          isPast := isPastDay d nowDay }

/-- Deduplication key: `${normalizeDate(event.reportDate)}-${event.ticker}`
— the normalized day number paired with the ticker. -/
def eventKey (e : EarningsEvent) : Int × String := (e.reportDay, e.ticker)

/-- The calendar-over-history merge of the dedup loop: a calendar event
missing (falsy) `estimatedEPS` or `reportedEPS` takes the field from the
already-stored event for the same key; everything else stays calendar. -/
def backfillFrom (e : EarningsEvent) (ex : Option EarningsEvent) :
    EarningsEvent :=
  match ex with
  | none => e
  | some x =>
      let e1 :=
        if !strTruthy e.estimatedEPS && strTruthy x.estimatedEPS then
          { e with estimatedEPS := x.estimatedEPS }
        else e
      if !strTruthy e1.reportedEPS && strTruthy x.reportedEPS then
        { e1 with reportedEPS := x.reportedEPS }
      else e1

/-- Deduplication by (normalized date, ticker): history events are stored
first, then every calendar event back-fills its EPS fields from the stored
event of its key (if any) and overwrites that slot. -/
def dedupEvents (histEvents calEvents : List EarningsEvent) :
    List ((Int × String) × EarningsEvent) :=
  calEvents.foldl
    (fun m e => aset m (eventKey e) (backfillFrom e (alookup m (eventKey e))))
    (histEvents.foldl (fun m e => aset m (eventKey e) e) [])

/-- `setHours(0,0,0,0)` on a raw epoch-ms timestamp, as the day number of
its midnight (all dates treated as UTC). -/
def truncToDay (ms : Int) : Int := ms.fdiv msPerDay

/-- The step-(4) selection as the specification words it: the usable
historical entry NEAREST to the row's date among those within 5 days
(first in iteration order on ties). -/
def nearestUsableRepWithin5 (entries : List AllEntry) (d : Int) :
    Option AllEntry :=
  entries.foldl (fun best e =>
    if within5Pred d e then
      match best with
      | none => some e
      | some b =>
          if (d - e.day).natAbs < (d - b.day).natAbs then some e else some b
    else best) none

/-! ## Monthly OHLC rollup (`summarizeTimeSeries`, C4)

`summarizeTimeSeries` iterates `Object.entries` of the daily time series,
keeps entries whose parsed date is on or after `threeYearsAgo`, and folds
them into `monthlyData`, keyed by `${year}-${month+1 padded}`: the first
entry of a month installs its high/low/close, later entries take the max
high, min low, and overwrite the close.  The final report string sorts the
month keys, keeps the last 36 and formats these aggregates; the claim is
about the per-month aggregate values. -/
/-- Parsed OHLC values of one daily entry. -/
structure DailyBar where
  high : Rat
  low : Rat
  close : Rat
deriving DecidableEq

/-- One entry of `Object.entries(dailyData)` after date parsing: raw
timestamp, the month key's components (calendar year, 0-indexed month) and
the parsed bar. -/
structure TsEntry where
  ts : Int
  year : Int
  month0 : Nat
  bar : DailyBar
deriving DecidableEq

/-- The month key `${year}-${pad2(month0+1)}` as its injective components. -/
def monthKeyOf (e : TsEntry) : Int × Nat := (e.year, e.month0)

/-- A month's aggregate in `monthlyData`. -/
structure MonthAgg where
  high : Rat
  low : Rat
  close : Rat
deriving DecidableEq

/-- Folding one in-window entry into a month's (possibly absent)
aggregate: install on first sight, else max-high / min-low / last close. -/
def rollOne (o : Option MonthAgg) (e : TsEntry) : MonthAgg :=
  match o with
  | none => ⟨e.bar.high, e.bar.low, e.bar.close⟩
  | some a => ⟨max a.high e.bar.high, min a.low e.bar.low, e.bar.close⟩

/-- One iteration of the `for (const [date, data] of Object.entries(...))`
loop with window cutoff `cutoff` (the `dateObj >= threeYearsAgo` guard). -/
def rollStep (cutoff : Int) (m : List ((Int × Nat) × MonthAgg))
    (e : TsEntry) : List ((Int × Nat) × MonthAgg) :=
  if cutoff ≤ e.ts then aset m (monthKeyOf e) (rollOne (alookup m (monthKeyOf e)) e)
  else m

/-- The `monthlyData` map built by `summarizeTimeSeries`. -/
def monthlyRollup (cutoff : Int) (l : List TsEntry) :
    List ((Int × Nat) × MonthAgg) :=
  l.foldl (rollStep cutoff) []

/-- The in-window entries of month `k`, in iteration order. -/
def monthEntries (cutoff : Int) (k : Int × Nat) (l : List TsEntry) :
    List TsEntry :=
  l.filter (fun e => decide (cutoff ≤ e.ts) && decide (monthKeyOf e = k))

/-! ## Provider fetch normalization (`fetchAlphaVantageData`, C8)

The data collector funnels every provider endpoint through
`fetchAlphaVantageData`, which inspects the parsed JSON for the three
provider failure markers and catches transport failures.  Only the three
marker fields influence the normalization, so the embedding carries them
(other payload fields ride along conceptually in `ok`). -/
/-- Marker fields of a parsed provider response: `data['Note']`,
`data['Error Message']`, `data['Information']`. -/
structure AVJson where
  note : Option String
  errorMessage : Option String
  information : Option String
deriving DecidableEq

/-- Outcome of `await fetch(url)` + `await response.json()`: a parsed body,
or a thrown transport/parse error with its message. -/
inductive FetchOutcome where
  | success (data : AVJson)
  | failure (msg : String)
deriving DecidableEq

/-- The values `fetchAlphaVantageData` returns: a uniform `{error}` object
(with the original `Note` attached in the rate-limit case), an
`{information}` object, or the data unchanged.  It never throws. -/
inductive AVResult where
  | errorResult (error : String) (note : Option String)
  | informationResult (info : String)
  | ok (data : AVJson)
deriving DecidableEq

/-- Whether a result is the uniform `{error}` shape. -/
def AVResult.isErrorValue : AVResult → Bool
  | .errorResult _ _ => true
  | _ => false

/-- `fetchAlphaVantageData`: rate-limit note → `{error: 'Rate limit
exceeded', Note}`; explicit error → `{error: message}`; informational →
`{information: message}`; otherwise the data; transport failure →
`{error: message}` from the catch block. -/
def fetchAlphaVantageData (r : FetchOutcome) : AVResult :=
  match r with
  | .failure msg => .errorResult msg none
  | .success data =>
      if strTruthy data.note then .errorResult "Rate limit exceeded" data.note
      else if strTruthy data.errorMessage then
        .errorResult (data.errorMessage.getD "") none
      else if strTruthy data.information then
        .informationResult (data.information.getD "")
      else .ok data

/-! ## In-memory status store and polling route (C9)

`src/lib/status-store.ts` holds a `Map<string, string>`;
`src/app/api/insights/status/route.ts` answers polls:
a missing (or falsy, i.e. empty) `requestId` parameter gives 400, and
otherwise the stored status — or the empty string when absent — with 200.
The route performs no authentication check. -/
/-- `getStatus`: read the in-memory map. -/
def getStatus (store : List (String × String)) (requestId : String) :
    Option String :=
  alookup store requestId

/-- `setStatus`: write the in-memory map. -/
def setStatus (store : List (String × String)) (requestId status : String) :
    List (String × String) :=
  aset store requestId status

/-- `deleteStatus`: remove the key from the in-memory map. -/
def deleteStatus (store : List (String × String)) (requestId : String) :
    List (String × String) :=
  store.filter (fun p => !(p.1 = requestId))

/-- Response of the status route: HTTP status plus the `error` or
`status` body field. -/
structure StatusResponse where
  httpStatus : Nat
  error : Option String
  status : Option String
deriving DecidableEq

/-- The status route's GET handler: `requestId` query parameter (absent =
`none`), then `if (!requestId)` → 400, else 200 with
`getStatus(requestId) || ''`. -/
def statusRouteGET (store : List (String × String))
    (requestIdParam : Option String) : StatusResponse :=
  match requestIdParam with
  | none => ⟨400, some "Missing requestId", none⟩
  | some rid =>
      if rid = "" then ⟨400, some "Missing requestId", none⟩
      else ⟨200, none, some ((getStatus store rid).getD "")⟩

/-! ## Chart-data route (C6)

The chart-data handler (second route of `src/app/api/earnings-lookup/route.ts`)
authenticates, validates `ticker`/`period`, picks the provider feed —
5-minute intraday bars for `1d`, 30-minute bars for `1w`, the daily feed
for everything longer — fetches it, maps rate-limit/errors, and otherwise
returns `filterTimeSeriesByPeriod`: points mapped to (price, timestamp),
filtered to `[startDate, endDate]` of `getDateRange`, sorted ascending by
timestamp.  `Date` component getters/setters are embedded through the
civil-calendar conversion (UTC). -/
/-- The six requested windows. -/
inductive TimePeriod where
  | d1 | w1 | m1 | m6 | y1 | y3
deriving DecidableEq

/-- The time-series granularities of the provider feeds. -/
inductive FeedInterval where
  | min5 | min30 | min60 | daily
deriving DecidableEq

/-- `getMonth()` (0-indexed) of a raw timestamp. -/
def jsGetMonth0 (ms : Int) : Int :=
  ((civilFromDays (ms.fdiv msPerDay)).2.1 : Int) - 1

/-- `getFullYear()` of a raw timestamp. -/
def jsGetFullYear (ms : Int) : Int := (civilFromDays (ms.fdiv msPerDay)).1

/-- `setMonth(m)` on a raw timestamp: keep the day-of-month and time of
day, normalize month overflow/underflow through the year. -/
def jsSetMonth (ms : Int) (newMonth0 : Int) : Int :=
  let day := ms.fdiv msPerDay
  let tod := ms - day * msPerDay
  let c := civilFromDays day
  let total := c.1 * 12 + newMonth0
  let y := total.fdiv 12
  let m0 := (total - 12 * y).toNat
  daysFromCivil y (m0 + 1) c.2.2 * msPerDay + tod

/-- `setFullYear(y)` on a raw timestamp: keep month, day-of-month and time
of day. -/
def jsSetFullYear (ms : Int) (newYear : Int) : Int :=
  let day := ms.fdiv msPerDay
  let tod := ms - day * msPerDay
  let c := civilFromDays day
  daysFromCivil newYear c.2.1 c.2.2 * msPerDay + tod

/-- `getDateRange(period)`: `endDate = now`, `startDate = now` pushed back
by the window through `setDate` / `setMonth` / `setFullYear`. -/
def getDateRange (period : TimePeriod) (now : Int) : Int × Int :=
  match period with
  | .d1 => (now - msPerDay, now)
  | .w1 => (now - 7 * msPerDay, now)
  | .m1 => (jsSetMonth now (jsGetMonth0 now - 1), now)
  | .m6 => (jsSetMonth now (jsGetMonth0 now - 6), now)
  | .y1 => (jsSetFullYear now (jsGetFullYear now - 1), now)
  | .y3 => (jsSetFullYear now (jsGetFullYear now - 3), now)

/-- The granularity the handler selects for a window. -/
def intervalFor (p : TimePeriod) : FeedInterval :=
  match p with
  | .d1 => .min5
  | .w1 => .min30
  | _ => .daily

/-- One entry of a provider time-series object, after parsing its datetime
key to a timestamp and its `4. close` to a number. -/
structure RawPoint where
  ts : Int
  close : Rat
deriving DecidableEq

/-- A parsed time-series response: marker fields plus the four possible
feed objects (`Time Series (5min)` / `(30min)` / `(60min)` / `(Daily)`). -/
structure TimeSeriesData where
  note : Option String
  errorMessage : Option String
  series5min : Option (List RawPoint)
  series30min : Option (List RawPoint)
  series60min : Option (List RawPoint)
  seriesDaily : Option (List RawPoint)
deriving DecidableEq

/-- The feed selected by the `timeSeriesKey` computed from the interval. -/
def seriesForKey (t : TimeSeriesData) (i : FeedInterval) :
    Option (List RawPoint) :=
  match i with
  | .min5 => t.series5min
  | .min30 => t.series30min
  | .min60 => t.series60min
  | .daily => t.seriesDaily

/-- The route's `ChartDataPoint` (date string omitted: it is determined by
the timestamp). -/
structure ChartPoint where
  price : Rat
  timestamp : Int
deriving DecidableEq

/-- `filterTimeSeriesByPeriod`: map the selected feed's entries to chart
points, keep those with a timestamp in `[startDate, endDate]`, and sort
ascending by timestamp. -/
def filterTimeSeriesByPeriod (t : TimeSeriesData) (period : TimePeriod)
    (interval : FeedInterval) (now : Int) : List ChartPoint :=
  match seriesForKey t interval with
  | none => []
  | some pts =>
      sortByKey (fun p => p.timestamp)
        ((pts.map (fun p => (⟨p.close, p.ts⟩ : ChartPoint))).filter
          (fun p => decide ((getDateRange period now).1 ≤ p.timestamp) &&
            decide (p.timestamp ≤ (getDateRange period now).2)))

/-- The provider URL the handler builds (function name and interval). -/
def chartUrlFor (ticker : String) (i : FeedInterval) : String :=
  match i with
  | .min5 => "TIME_SERIES_INTRADAY/5min/" ++ ticker
  | .min30 => "TIME_SERIES_INTRADAY/30min/" ++ ticker
  | .min60 => "TIME_SERIES_INTRADAY/60min/" ++ ticker
  | .daily => "TIME_SERIES_DAILY/" ++ ticker

/-- Response of the chart-data route. -/
structure ChartResponse where
  httpStatus : Nat
  error : Option String
  data : List ChartPoint
deriving DecidableEq

/-- The chart-data GET handler, with the provider modelled as a function
from the selected granularity to the parsed response; the second component
lists the upstream calls made. -/
def chartDataRouteGET (user : Option Unit) (ticker : Option String)
    (period : Option TimePeriod) (hasApiKey : Bool) (now : Int)
    (provider : FeedInterval → TimeSeriesData) : ChartResponse × List String :=
  match user with
  | none => (⟨401, some "Unauthorized", []⟩, [])
  | some _ =>
      match ticker, period with
      | none, _ => (⟨400, some "Ticker and period are required", []⟩, [])
      | some _, none => (⟨400, some "Ticker and period are required", []⟩, [])
      | some tk, some p =>
          if !hasApiKey then
            (⟨500, some "Alpha Vantage API key not configured", []⟩, [])
          else
            let i := intervalFor p
            let data := provider i
            if strTruthy data.note then
              (⟨429, some "API rate limit exceeded. Please try again later.", []⟩,
                [chartUrlFor tk i])
            else if strTruthy data.errorMessage then
              (⟨400, data.errorMessage, []⟩, [chartUrlFor tk i])
            else
              (⟨200, none, filterTimeSeriesByPeriod data p i now⟩,
                [chartUrlFor tk i])

/-- A concrete clean daily time-series response: two points, one inside
and one outside a 6-month window ending 2025-01-01. -/
def chartT0 : TimeSeriesData :=
  ⟨none, none, none, none, none,
    some [⟨19950 * 86400000, 1⟩, ⟨19800 * 86400000, 2⟩]⟩

/-- The provider answering `chartT0` for every granularity. -/
def chartProvider0 : FeedInterval → TimeSeriesData := fun _ => chartT0

/-! ## Earnings-marker placement (C7)

Two marker builders exist.  The watchlist earnings-dates route scans the
daily time series at day offsets −5..+5 around each earnings date and
keeps the strictly closest hit; the insights chart component scans the
chart points and keeps the strictly closest point that is on the marker's
calendar day (any window) or within 3 days (daily windows).  In both, an
exact-date hit has distance 0 and, because later candidates must be
strictly closer, wins over every other candidate. -/
/-- State of the route's ±5-day scan: `closestDiff` (ms, `none` =
`Infinity`), the price found, and its date (initialized to the earnings
date). -/
structure MarkerScan where
  closestDiff : Option Nat
  price : Rat
  closestDate : Int
deriving DecidableEq

/-- `diff < closestDiff` with `none` playing `Infinity`. -/
def diffLt (d : Nat) : Option Nat → Bool
  | none => true
  | some x => d < x

/-- One iteration of the route's offset loop: probe the series at
`earningsDate + i` days and keep a strictly closer hit. -/
def markerScanStep (series : List (Int × Rat)) (eDay : Int)
    (s : MarkerScan) (i : Int) : MarkerScan :=
  match alookup series (eDay + i) with
  | none => s
  | some close =>
      if diffLt (i * msPerDay).natAbs s.closestDiff then
        ⟨some (i * msPerDay).natAbs, close, eDay + i⟩
      else s

/-- The offsets `-5..5` in loop order. -/
def dayOffsets : List Int := [-5, -4, -3, -2, -1, 0, 1, 2, 3, 4, 5]

/-- The route's closest-trading-day search around one earnings date. -/
def findClosestPrice (series : List (Int × Rat)) (eDay : Int) : MarkerScan :=
  dayOffsets.foldl (markerScanStep series eDay) ⟨none, 0, eDay⟩

/-- The route's `EarningsMarker` (surprise fields omitted; they are copied
verbatim like the EPS fields). -/
structure EarningsMarker where
  date : Int
  label : String
  price : Rat
  timestamp : Int
  reportedEPS : Option String
  estimatedEPS : Option String
deriving DecidableEq

/-- The marker emitted for one quarterly entry: only for a dated entry
inside the window, and only when a positive price was found nearby. -/
def markerForEarnings (series : List (Int × Rat)) (startMs endMs : Int)
    (q : QEarning) : Option EarningsMarker :=
  match q.fiscalDateEnding with
  | none => none
  | some fd =>
      if startMs ≤ fd * msPerDay ∧ fd * msPerDay ≤ endMs then
        if 0 < (findClosestPrice series fd).price then
          some
            ⟨(findClosestPrice series fd).closestDate, labelOfDay fd,
              (findClosestPrice series fd).price,
              (findClosestPrice series fd).closestDate * msPerDay,
              orNull q.reportedEPS, orNull q.estimatedEPS⟩
        else none
      else none

/-- One iteration of the chart component's `earningsDataPoints` loop:
candidates are points on the marker's calendar day, or — for the daily
windows — points within 3 days; the strictly closest candidate wins. -/
def chartMarkerStep (p : TimePeriod) (m : EarningsMarker)
    (s : Option Nat × Option ChartPoint) (pt : ChartPoint) :
    Option Nat × Option ChartPoint :=
  if pt.timestamp.fdiv msPerDay = m.date ∨
      (p ≠ .d1 ∧ p ≠ .w1 ∧ (pt.timestamp - m.timestamp).natAbs < 3 * 86400000)
  then
    if diffLt (pt.timestamp - m.timestamp).natAbs s.1 then
      (some (pt.timestamp - m.timestamp).natAbs, some pt)
    else s
  else s

/-- The chart point a marker is attached to (`closestPoint`). -/
def findMarkerPoint (chartData : List ChartPoint) (p : TimePeriod)
    (m : EarningsMarker) : Option ChartPoint :=
  (chartData.foldl (chartMarkerStep p m) (none, none)).2

/-! ## Route authentication prefixes (C5)

Every data route first resolves the session user and returns
`{error: 'Unauthorized'}` with status 401 before touching parameters,
configuration, the database or the provider; the handlers below embed
those routes at request level, with the provider/database modelled as
oracle parameters and the second component recording every upstream or
database call actually made.  Three routes are exceptions with no
authentication check at all: the generation-status poller
(`src/app/api/insights/status/route.ts`), the ticker-search route (which
fires an upstream SYMBOL_SEARCH call for any request), and the logo
proxy (which fetches its logo providers for any request). -/
/-- A minimal JSON response: HTTP status and the `error` body field. -/
structure ApiResponse where
  httpStatus : Nat
  error : Option String
deriving DecidableEq

/-- The stock-quote route (`src/app/api/stock-quote/route.ts`). -/
def stockQuoteRouteGET (user : Option Unit) (ticker : Option String)
    (hasKey : Bool) (provider : Unit → AVJson) : ApiResponse × List String :=
  match user with
  | none => (⟨401, some "Unauthorized"⟩, [])
  | some _ =>
      match ticker with
      | none => (⟨400, some "Ticker is required"⟩, [])
      | some tk =>
          if !hasKey then
            (⟨500, some "Alpha Vantage API key not configured"⟩, [])
          else
            let data := provider ()
            if strTruthy data.note then
              (⟨429, some "API rate limit exceeded. Please try again later."⟩,
                ["GLOBAL_QUOTE/" ++ tk])
            else if strTruthy data.errorMessage then
              (⟨400, data.errorMessage⟩, ["GLOBAL_QUOTE/" ++ tk])
            else (⟨200, none⟩, ["GLOBAL_QUOTE/" ++ tk])

/-- The calendar-CSV body reduced to its two marker tests
(`text.includes('Note')` / `text.includes('Error Message')`). -/
structure CalendarText where
  hasNoteMarker : Bool
  hasErrorMarker : Bool
deriving DecidableEq

/-- The earnings-lookup route (first route of
`src/app/api/earnings-lookup/route.ts`); the date extraction behind the
200 response is outside this claim. -/
def earningsLookupRouteGET (user : Option Unit) (ticker : Option String)
    (hasKey : Bool) (overview earnings : AVJson) (cal : CalendarText) :
    ApiResponse × List String :=
  match user with
  | none => (⟨401, some "Unauthorized"⟩, [])
  | some _ =>
      match ticker with
      | none => (⟨400, some "Ticker is required"⟩, [])
      | some tk =>
          if !hasKey then
            (⟨500, some "Alpha Vantage API key not configured"⟩, [])
          else
            let calls := ["OVERVIEW/" ++ tk, "EARNINGS/" ++ tk,
              "EARNINGS_CALENDAR/" ++ tk]
            if strTruthy overview.note || strTruthy earnings.note ||
                cal.hasNoteMarker then
              (⟨429, some "API rate limit exceeded. Please try again later."⟩,
                calls)
            else if strTruthy overview.errorMessage ||
                strTruthy earnings.errorMessage || cal.hasErrorMarker then
              (⟨400, some "Failed to fetch earnings data"⟩, calls)
            else (⟨200, none⟩, calls)

/-- A parsed EARNINGS response for the marker route. -/
structure EarningsFeed where
  note : Option String
  errorMessage : Option String
  quarterlyEarnings : Option (List QEarning)
deriving DecidableEq

/-- Response of the earnings-markers route. -/
structure MarkersResponse where
  httpStatus : Nat
  error : Option String
  markers : List EarningsMarker
deriving DecidableEq

/-- The watchlist earnings-dates (marker) route: EARNINGS feed first, then
the daily series; markers built per quarterly entry and sorted by
timestamp. -/
def earningsDatesRouteGET (user : Option Unit) (ticker : Option String)
    (period : Option TimePeriod) (hasKey : Bool) (now : Int)
    (earningsFeed : EarningsFeed) (series : List (Int × Rat)) :
    MarkersResponse × List String :=
  match user with
  | none => (⟨401, some "Unauthorized", []⟩, [])
  | some _ =>
      match ticker, period with
      | none, _ => (⟨400, some "Ticker and period are required", []⟩, [])
      | some _, none => (⟨400, some "Ticker and period are required", []⟩, [])
      | some tk, some p =>
          if !hasKey then
            (⟨500, some "Alpha Vantage API key not configured", []⟩, [])
          else if strTruthy earningsFeed.note then
            (⟨429, some "API rate limit exceeded. Please try again later.", []⟩,
              ["EARNINGS/" ++ tk])
          else if strTruthy earningsFeed.errorMessage then
            (⟨400, earningsFeed.errorMessage, []⟩, ["EARNINGS/" ++ tk])
          else
            (⟨200, none,
              match earningsFeed.quarterlyEarnings with
              | none => []
              | some qs =>
                  sortByKey (fun mk => mk.timestamp)
                    (qs.filterMap (markerForEarnings series
                      (getDateRange p now).1 (getDateRange p now).2))⟩,
              ["EARNINGS/" ++ tk, "TIME_SERIES_DAILY/" ++ tk])

/-- The earnings-calendar route at request level: auth, configuration,
year/month validation, watchlist read, then two provider calls per
watchlist item (the per-row reconciliation itself is
`mkCalendarEvent` / `mkHistoryEvent` / `dedupEvents`). -/
def calendarEarningsRouteGET (user : Option Unit) (hasKey : Bool)
    (year month : Option Int)
    (dbWatchlist : Unit → Except String (List String)) :
    ApiResponse × List String :=
  match user with
  | none => (⟨401, some "Unauthorized"⟩, [])
  | some _ =>
      if !hasKey then
        (⟨500, some "Alpha Vantage API key not configured"⟩, [])
      else
        match year, month with
        | none, _ => (⟨400, some "Valid year and month (1-12) are required"⟩, [])
        | _, none => (⟨400, some "Valid year and month (1-12) are required"⟩, [])
        | some _, some m =>
            if m < 1 ∨ 12 < m then
              (⟨400, some "Valid year and month (1-12) are required"⟩, [])
            else
              match dbWatchlist () with
              | .error _ => (⟨500, some "Failed to fetch watchlist"⟩,
                  ["db:watchlist.select"])
              | .ok [] => (⟨200, none⟩, ["db:watchlist.select"])
              | .ok items =>
                  (⟨200, none⟩,
                    "db:watchlist.select" ::
                      items.flatMap (fun tk =>
                        ["EARNINGS_CALENDAR/" ++ tk, "EARNINGS/" ++ tk]))

/-- The watchlist GET route. -/
def watchlistRouteGET (user : Option Unit)
    (dbSelect : Unit → Except String (List String)) :
    ApiResponse × List String :=
  match user with
  | none => (⟨401, some "Unauthorized"⟩, [])
  | some _ =>
      match dbSelect () with
      | .error _ => (⟨500, some "Failed to fetch watchlist"⟩, ["db:select"])
      | .ok _ => (⟨200, none⟩, ["db:select"])

/-- The watchlist POST route. -/
def watchlistRoutePOST (user : Option Unit)
    (ticker companyName : Option String) (existing : Bool)
    (insertErr : Option String) : ApiResponse × List String :=
  match user with
  | none => (⟨401, some "Unauthorized"⟩, [])
  | some _ =>
      match ticker, companyName with
      | none, _ => (⟨400, some "Ticker and company name are required"⟩, [])
      | _, none => (⟨400, some "Ticker and company name are required"⟩, [])
      | some _, some _ =>
          if existing then
            (⟨400, some "Stock already in watchlist"⟩, ["db:select.existing"])
          else
            match insertErr with
            | some _ => (⟨500, some "Failed to add stock to watchlist"⟩,
                ["db:select.existing", "db:insert"])
            | none => (⟨200, none⟩, ["db:select.existing", "db:insert"])

/-- The watchlist DELETE route. -/
def watchlistRouteDELETE (user : Option Unit) (ticker : Option String)
    (deleteErr : Option String) : ApiResponse × List String :=
  match user with
  | none => (⟨401, some "Unauthorized"⟩, [])
  | some _ =>
      match ticker with
      | none => (⟨400, some "Ticker is required"⟩, [])
      | some _ =>
          match deleteErr with
          | some _ => (⟨500, some "Failed to remove stock from watchlist"⟩,
              ["db:delete"])
          | none => (⟨200, none⟩, ["db:delete"])

/-- The insights (analysis-generation) POST route: authentication precedes
body parsing, agent construction and every generation call. -/
def insightsRoutePOST (user : Option Unit) (ticker : Option String)
    (generate : Unit → String) : ApiResponse × List String :=
  match user with
  | none => (⟨401, some "Unauthorized"⟩, [])
  | some _ =>
      match ticker with
      | none => (⟨400, some "Ticker is required"⟩, [])
      | some tk =>
          let _content := generate ()
          (⟨200, none⟩, ["agent:generate/" ++ tk, "db:analyses.insert"])

/-- The ticker-search route: it performs NO authentication check — any
request carrying keywords goes straight to an upstream SYMBOL_SEARCH
call, whose result (or rate-limit/error mapping) is returned. -/
def tickerSearchRouteGET (keywords : Option String) (hasKey : Bool)
    (provider : Unit → AVJson) : ApiResponse × List String :=
  match keywords with
  | none => (⟨400, some "Keywords are required"⟩, [])
  | some kw =>
      if kw = "" then (⟨400, some "Keywords are required"⟩, [])
      else if !hasKey then
        (⟨500, some "Alpha Vantage API key not configured"⟩, [])
      else
        let data := provider ()
        if strTruthy data.note then
          (⟨429, some "API rate limit exceeded. Please try again later."⟩,
            ["SYMBOL_SEARCH/" ++ kw])
        else if strTruthy data.errorMessage then
          (⟨400, data.errorMessage⟩, ["SYMBOL_SEARCH/" ++ kw])
        else (⟨200, none⟩, ["SYMBOL_SEARCH/" ++ kw])

/-- The watchlist batch-refresh route: authentication first, then the
posted watchlist array, then the API key, then two provider calls
(GLOBAL_QUOTE, EARNINGS_CALENDAR) per watchlist item. -/
def watchlistRefreshRoutePOST (user : Option Unit)
    (watchlist : Option (List String)) (hasKey : Bool) :
    ApiResponse × List String :=
  match user with
  | none => (⟨401, some "Unauthorized"⟩, [])
  | some _ =>
      match watchlist with
      | none => (⟨400, some "Watchlist array is required"⟩, [])
      | some items =>
          if !hasKey then
            (⟨500, some "Alpha Vantage API key not configured"⟩, [])
          else
            (⟨200, none⟩,
              items.flatMap (fun tk =>
                ["GLOBAL_QUOTE/" ++ tk, "EARNINGS_CALENDAR/" ++ tk]))

/-- The logo proxy route: it performs NO authentication check — any
request with a ticker fetches the logo providers upstream (logo.dev when
its key is configured, then the clearbit fallback); the built-in
ticker→domain table only shapes the URL and is outside this claim. -/
def logoRouteGET (ticker : Option String) (hasLogoKey : Bool)
    (logoDevOk : Bool) (clearbitOk : Bool) : ApiResponse × List String :=
  match ticker with
  | none => (⟨400, some "Ticker is required"⟩, [])
  | some tk =>
      if hasLogoKey then
        if logoDevOk then (⟨200, none⟩, ["logo.dev/" ++ tk])
        else if clearbitOk then
          (⟨200, none⟩, ["logo.dev/" ++ tk, "clearbit/" ++ tk])
        else
          (⟨404, some "Failed to fetch logo"⟩,
            ["logo.dev/" ++ tk, "clearbit/" ++ tk])
      else
        if clearbitOk then (⟨200, none⟩, ["clearbit/" ++ tk])
        else (⟨404, some "Failed to fetch logo"⟩, ["clearbit/" ++ tk])

/-! ## Theorems -/

theorem alookup_aset_self {κ α : Type} [DecidableEq κ]
    (l : List (κ × α)) (k : κ) (a : α) : alookup (aset l k a) k = some a := by
  induction l with
  | nil => simp [aset, alookup]
  | cons p l ih =>
      obtain ⟨k0, a0⟩ := p
      by_cases h : k = k0
      · simp [aset, alookup, h]
      · simp [aset, alookup, h, ih]

theorem alookup_aset_other {κ α : Type} [DecidableEq κ]
    (l : List (κ × α)) (k k' : κ) (a : α) (h : k' ≠ k) :
    alookup (aset l k a) k' = alookup l k' := by
  induction l with
  | nil => simp [aset, alookup, h]
  | cons p l ih =>
      obtain ⟨k0, a0⟩ := p
      by_cases hk : k = k0
      · subst hk
        simp [aset, alookup, h]
      · by_cases hk' : k' = k0
        · simp [aset, alookup, hk, hk']
        · simp [aset, alookup, hk, hk', ih]

theorem natDigitsF_ne_nil (fuel n : Nat) (h : n < fuel) :
    natDigitsF fuel n ≠ [] := by
  cases fuel with
  | zero => omega
  | succ fuel =>
      rw [natDigitsF]
      split <;> simp

theorem natDigits_length_ge_two (n : Nat) (h : 10 ≤ n) :
    2 ≤ (natDigits n).length := by
  rw [natDigits, natDigitsF]
  rw [if_neg (by omega)]
  have hne := natDigitsF_ne_nil n (n / 10)
    (Nat.div_lt_self (by omega) (by omega))
  have h1 : 1 ≤ (natDigitsF n (n / 10)).length := by
    cases hd : natDigitsF n (n / 10) with
    | nil => exact absurd hd hne
    | cons a l => simp
  simp only [List.length_append, List.length_cons, List.length_nil]
  omega

theorem natDigitsF_all_digits (fuel : Nat) :
    ∀ n, ∀ c ∈ natDigitsF fuel n, ∃ d : Fin 10, c = digitChar d.1 := by
  induction fuel with
  | zero => intro n c hc; simp [natDigitsF] at hc
  | succ fuel ih =>
      intro n c hc
      rw [natDigitsF] at hc
      split at hc
      · next h =>
          simp only [List.mem_singleton] at hc
          exact ⟨⟨n, h⟩, hc⟩
      · next h =>
          rw [List.mem_append] at hc
          rcases hc with hc | hc
          · exact ih (n / 10) c hc
          · simp only [List.mem_singleton] at hc
            exact ⟨⟨n % 10, Nat.mod_lt _ (by omega)⟩, hc⟩

theorem natDigits_all_digits (n : Nat) :
    ∀ c ∈ natDigits n, ∃ d : Fin 10, c = digitChar d.1 :=
  natDigitsF_all_digits (n + 1) n

theorem lastK_length_of_le {α : Type} (l : List α) (k : Nat)
    (h : k ≤ l.length) : (lastK l k).length = k := by
  simp [lastK]
  omega

theorem lastK_subset {α : Type} (l : List α) (k : Nat) :
    ∀ a ∈ lastK l k, a ∈ l := by
  intro a ha
  exact List.mem_of_mem_drop ha

theorem mem_insertByKey {α : Type} (key : α → Int) (a b : α) (l : List α) :
    b ∈ insertByKey key a l ↔ b = a ∨ b ∈ l := by
  induction l with
  | nil => simp [insertByKey]
  | cons c l ih =>
      by_cases h : key c < key a
      · simp only [insertByKey, h, if_true, List.mem_cons, ih]
        tauto
      · simp only [insertByKey, h, if_false, List.mem_cons]

theorem mem_sortByKey {α : Type} (key : α → Int) (a : α) (l : List α) :
    a ∈ sortByKey key l ↔ a ∈ l := by
  induction l with
  | nil => simp [sortByKey]
  | cons b l ih =>
      simp only [sortByKey, mem_insertByKey, List.mem_cons, ih]

theorem pairwise_insertByKey {α : Type} (key : α → Int) (a : α) (l : List α)
    (h : l.Pairwise (fun x y => key x ≤ key y)) :
    (insertByKey key a l).Pairwise (fun x y => key x ≤ key y) := by
  induction l with
  | nil => simp [insertByKey]
  | cons b l ih =>
      rcases List.pairwise_cons.mp h with ⟨hb, hl⟩
      by_cases hba : key b < key a
      · simp only [insertByKey, hba, if_true]
        refine List.pairwise_cons.mpr ⟨?_, ih hl⟩
        intro x hx
        rcases (mem_insertByKey key a x l).mp hx with rfl | hx
        · omega
        · exact hb x hx
      · simp only [insertByKey, hba, if_false]
        refine List.pairwise_cons.mpr ⟨?_, h⟩
        intro x hx
        rcases List.mem_cons.mp hx with rfl | hx
        · omega
        · have := hb x hx
          omega

theorem pairwise_sortByKey {α : Type} (key : α → Int) (l : List α) :
    (sortByKey key l).Pairwise (fun x y => key x ≤ key y) := by
  induction l with
  | nil => simp [sortByKey]
  | cons a l ih => exact pairwise_insertByKey key a _ ih

/-- On a list that is pairwise descending in `key`, a successful `find?`
returns an element of maximal key among all elements satisfying the
predicate. -/
theorem find_pairwise_max {α : Type} (key : α → Int) (p : α → Bool)
    (l : List α) (hl : l.Pairwise (fun x y => key y ≤ key x)) (a : α)
    (ha : l.find? p = some a) :
    a ∈ l ∧ p a = true ∧ ∀ b ∈ l, p b = true → key b ≤ key a := by
  induction l with
  | nil => simp [List.find?] at ha
  | cons c l ih =>
      rcases List.pairwise_cons.mp hl with ⟨hc, hl'⟩
      by_cases hp : p c
      · rw [List.find?_cons_of_pos _ hp] at ha
        injection ha with ha
        subst ha
        refine ⟨List.mem_cons_self _ _, hp, ?_⟩
        intro b hb _
        rcases List.mem_cons.mp hb with rfl | hb
        · omega
        · exact hc b hb
      · rw [List.find?_cons_of_neg _ (by simpa using hp)] at ha
        obtain ⟨hmem, hpa, hmax⟩ := ih hl' ha
        refine ⟨List.mem_cons_of_mem _ hmem, hpa, ?_⟩
        intro b hb hpb
        rcases List.mem_cons.mp hb with rfl | hb
        · exact absurd hpb (by simpa using hp)
        · exact hmax b hb hpb

theorem natDigits_of_lt_ten (n : Nat) (h : n < 10) :
    natDigits n = [digitChar n] := by
  rw [natDigits, natDigitsF, if_pos h]

/-- C3, counterexample: for the date 2025-07-21 (month0 = 6) the derived
label is `"Q3 FY25"`, which contains a space and hence does not have the
claimed form `Q{1..4}FY{two digits}`. -/
theorem label_not_claimed_form :
    reconcilerLabel 2025 ⟨6, by omega⟩ = "Q3 FY25" ∧
    ¬ claimedLabelForm (reconcilerLabel 2025 ⟨6, by omega⟩) := by
  constructor
  · rfl
  · decide

/-- C3 (amended): for every parsed date (year ≥ 10 so that the year has at
least two decimal digits), the reconciler's label is exactly
`Q{q} FY{two digits}` — with a space before `FY` — where the quarter digit
is `floor(month0 / 3) + 1` for the 0-indexed calendar month, that quarter
lies in 1..4, and the agent's `formatEarningsLabel` produces the identical
label. -/
theorem label_amended_form (year : Nat) (m : Fin 12) (h : 10 ≤ year) :
    (∃ d1 d2 : Fin 10,
      reconcilerLabel year m =
        String.mk ['Q', digitChar (m.1 / 3 + 1), ' ', 'F', 'Y',
          digitChar d1.1, digitChar d2.1]) ∧
    1 ≤ m.1 / 3 + 1 ∧ m.1 / 3 + 1 ≤ 4 ∧
    formatEarningsLabel year m = reconcilerLabel year m := by
  refine ⟨?_, by omega, by have := m.isLt; omega, rfl⟩
  have hq : natDigits (m.1 / 3 + 1) = [digitChar (m.1 / 3 + 1)] :=
    natDigits_of_lt_ten _ (by have := m.isLt; omega)
  have hlen : (lastK (natDigits year) 2).length = 2 :=
    lastK_length_of_le _ _ (natDigits_length_ge_two year h)
  obtain ⟨c1, c2, hc⟩ : ∃ c1 c2, lastK (natDigits year) 2 = [c1, c2] := by
    cases hl : lastK (natDigits year) 2 with
    | nil => rw [hl] at hlen; simp at hlen
    | cons a t =>
        cases t with
        | nil => rw [hl] at hlen; simp at hlen
        | cons b t2 =>
            cases t2 with
            | nil => exact ⟨a, b, rfl⟩
            | cons c t3 => rw [hl] at hlen; simp at hlen
  have h1 : c1 ∈ natDigits year :=
    lastK_subset _ _ c1 (by rw [hc]; simp)
  have h2 : c2 ∈ natDigits year :=
    lastK_subset _ _ c2 (by rw [hc]; simp)
  obtain ⟨d1, hd1⟩ := natDigits_all_digits year c1 h1
  obtain ⟨d2, hd2⟩ := natDigits_all_digits year c2 h2
  refine ⟨d1, d2, ?_⟩
  rw [reconcilerLabel, hq, hc, ← hd1, ← hd2]
  rfl

/-- Witness for the amended C3 theorem at the concrete date 2024-08-15. -/
theorem label_amended_form_witness :
    10 ≤ 2024 ∧
    ((∃ d1 d2 : Fin 10,
      reconcilerLabel 2024 ⟨7, by omega⟩ =
        String.mk ['Q', digitChar ((7 : Nat) / 3 + 1), ' ', 'F', 'Y',
          digitChar d1.1, digitChar d2.1]) ∧
    1 ≤ (7 : Nat) / 3 + 1 ∧ (7 : Nat) / 3 + 1 ≤ 4 ∧
    formatEarningsLabel 2024 ⟨7, by omega⟩ = reconcilerLabel 2024 ⟨7, by omega⟩) :=
  ⟨by omega, label_amended_form 2024 ⟨7, by omega⟩ (by omega)⟩

/-- C10: an earnings event (from either feed) whose date equals the
current day after truncation to midnight is classified `isPast = false`:
the classification is the strict comparison `earningsDate < now` on
midnight-truncated dates, so same-day events count as future. -/
theorem sameDay_event_not_past (nowMs : Int) (t c : String) (q : QEarning)
    (ctx : ReconCtx) (row : CalRow) (d : Int)
    (hq : (match q.reportedDate with
           | some x => some x
           | none => q.fiscalDateEnding) = some d)
    (hrow : rowDay row = some d)
    (hd : d = truncToDay nowMs)
    (hctx : ctx.nowDay = truncToDay nowMs) :
    (mkHistoryEvent t c (truncToDay nowMs) q).map (fun e => e.isPast) =
      some false ∧
    (mkCalendarEvent t c ctx row).map (fun e => e.isPast) = some false := by
  constructor
  · rw [mkHistoryEvent, hq]
    simp [isPastDay, hd]
  · rw [mkCalendarEvent, hrow]
    simp [isPastDay, hd, hctx]

/-- Witness for C10: a history entry reported on day 20000 and a calendar
row dated day 20000, with `now` being 7:30am (27000000 ms) of day 20000. -/
theorem sameDay_event_not_past_witness :
    ((match (some 20000 : Option Int) with
      | some x => some x
      | none => (some 19908 : Option Int)) = some 20000) ∧
    (rowDay ⟨some 20000, none, none⟩ = some 20000) ∧
    ((20000 : Int) = truncToDay (20000 * 86400000 + 27000000)) ∧
    ((buildReconCtx 20000 []).nowDay = truncToDay (20000 * 86400000 + 27000000)) ∧
    ((mkHistoryEvent "AAPL" "Apple Inc" (truncToDay (20000 * 86400000 + 27000000))
        ⟨some 19908, some 20000, some "1.50", some "1.62"⟩).map (fun e => e.isPast) =
      some false ∧
    (mkCalendarEvent "AAPL" "Apple Inc" (buildReconCtx 20000 [])
        ⟨some 20000, none, none⟩).map (fun e => e.isPast) = some false) :=
  ⟨by decide, by decide, by decide, by decide,
    sameDay_event_not_past (20000 * 86400000 + 27000000) "AAPL" "Apple Inc"
      ⟨some 19908, some 20000, some "1.50", some "1.62"⟩
      (buildReconCtx 20000 []) ⟨some 20000, none, none⟩ 20000
      (by decide) (by decide) (by decide) (by decide)⟩

/-! ### Deduplication lemmas (C2) -/
theorem histFold_lookup_none (k : Int × String) :
    ∀ (l : List EarningsEvent) (m : List ((Int × String) × EarningsEvent)),
      (∀ e ∈ l, eventKey e ≠ k) →
      alookup (l.foldl (fun m e => aset m (eventKey e) e) m) k = alookup m k := by
  intro l
  induction l with
  | nil => intro m _; rfl
  | cons e l ih =>
      intro m hm
      have he : eventKey e ≠ k := hm e (List.mem_cons_self _ _)
      have hl : ∀ x ∈ l, eventKey x ≠ k := fun x hx => hm x (List.mem_cons_of_mem _ hx)
      simp only [List.foldl_cons]
      rw [ih _ hl, alookup_aset_other _ _ _ _ (Ne.symm he)]

theorem histFold_lookup_single (k : Int × String) (h : EarningsEvent) :
    ∀ (l : List EarningsEvent) (m : List ((Int × String) × EarningsEvent)),
      l.filter (fun e => decide (eventKey e = k)) = [h] →
      alookup (l.foldl (fun m e => aset m (eventKey e) e) m) k = some h := by
  intro l
  induction l with
  | nil => intro m hf; simp [List.filter] at hf
  | cons e l ih =>
      intro m hf
      by_cases hk : eventKey e = k
      · rw [List.filter_cons_of_pos (by simpa using hk)] at hf
        injection hf with hf1 hf2
        subst hf1
        have hnil : ∀ x ∈ l, eventKey x ≠ k := by
          intro x hx
          have := List.filter_eq_nil_iff.mp hf2 x hx
          simpa using this
        simp only [List.foldl_cons]
        rw [histFold_lookup_none k l _ hnil, hk, alookup_aset_self]
      · rw [List.filter_cons_of_neg (by simpa using hk)] at hf
        simp only [List.foldl_cons]
        exact ih _ hf

theorem calFold_lookup_none (k : Int × String) :
    ∀ (l : List EarningsEvent) (m : List ((Int × String) × EarningsEvent)),
      (∀ e ∈ l, eventKey e ≠ k) →
      alookup (l.foldl (fun m e =>
        aset m (eventKey e) (backfillFrom e (alookup m (eventKey e)))) m) k =
      alookup m k := by
  intro l
  induction l with
  | nil => intro m _; rfl
  | cons e l ih =>
      intro m hm
      have he : eventKey e ≠ k := hm e (List.mem_cons_self _ _)
      have hl : ∀ x ∈ l, eventKey x ≠ k := fun x hx => hm x (List.mem_cons_of_mem _ hx)
      simp only [List.foldl_cons]
      rw [ih _ hl, alookup_aset_other _ _ _ _ (Ne.symm he)]

theorem calFold_lookup_single (k : Int × String) (c : EarningsEvent) :
    ∀ (l : List EarningsEvent) (m : List ((Int × String) × EarningsEvent)),
      l.filter (fun e => decide (eventKey e = k)) = [c] →
      alookup (l.foldl (fun m e =>
        aset m (eventKey e) (backfillFrom e (alookup m (eventKey e)))) m) k =
      some (backfillFrom c (alookup m k)) := by
  intro l
  induction l with
  | nil => intro m hf; simp [List.filter] at hf
  | cons e l ih =>
      intro m hf
      by_cases hk : eventKey e = k
      · rw [List.filter_cons_of_pos (by simpa using hk)] at hf
        injection hf with hf1 hf2
        subst hf1
        have hnil : ∀ x ∈ l, eventKey x ≠ k := by
          intro x hx
          have := List.filter_eq_nil_iff.mp hf2 x hx
          simpa using this
        simp only [List.foldl_cons]
        rw [calFold_lookup_none k l _ hnil, hk, alookup_aset_self]
      · rw [List.filter_cons_of_neg (by simpa using hk)] at hf
        simp only [List.foldl_cons]
        rw [ih _ hf, alookup_aset_other _ _ _ _ (Ne.symm hk)]

/-- C2 (amended): when exactly one history-sourced event `h` and one
calendar-sourced event `c` carry the key (normalized date, ticker) `k`,
the deduplicated map holds a single merged event for `k` whose
`estimatedEPS` and `reportedEPS` obey the back-fill invariant — calendar
value when truthy, else the history value when truthy, else the calendar
null — so neither EPS field is null if either source supplied it; every
other field (including a null `fiscalDateEnding`) is taken from the
calendar event unconditionally. -/
theorem dedup_backfill_invariant (hist cal : List EarningsEvent)
    (k : Int × String) (h c : EarningsEvent)
    (hh : hist.filter (fun e => decide (eventKey e = k)) = [h])
    (hc : cal.filter (fun e => decide (eventKey e = k)) = [c]) :
    ∃ f, alookup (dedupEvents hist cal) k = some f ∧
      f.estimatedEPS = (if strTruthy c.estimatedEPS then c.estimatedEPS
        else if strTruthy h.estimatedEPS then h.estimatedEPS
        else c.estimatedEPS) ∧
      f.reportedEPS = (if strTruthy c.reportedEPS then c.reportedEPS
        else if strTruthy h.reportedEPS then h.reportedEPS
        else c.reportedEPS) ∧
      strTruthy f.estimatedEPS =
        (strTruthy c.estimatedEPS || strTruthy h.estimatedEPS) ∧
      strTruthy f.reportedEPS =
        (strTruthy c.reportedEPS || strTruthy h.reportedEPS) ∧
      f.ticker = c.ticker ∧ f.companyName = c.companyName ∧
      f.reportDay = c.reportDay ∧ f.label = c.label ∧
      f.fiscalDateEnding = c.fiscalDateEnding ∧ f.isPast = c.isPast := by
  have hmain : alookup (dedupEvents hist cal) k =
      some (backfillFrom c (some h)) := by
    rw [dedupEvents, calFold_lookup_single k c cal _ hc,
      histFold_lookup_single k h hist _ hh]
  refine ⟨backfillFrom c (some h), hmain, ?_⟩
  by_cases h1 : strTruthy c.estimatedEPS <;>
    by_cases h2 : strTruthy h.estimatedEPS <;>
      by_cases h3 : strTruthy c.reportedEPS <;>
        by_cases h4 : strTruthy h.reportedEPS <;>
          simp [backfillFrom, h1, h2, h3, h4]

/-- Witness for the amended C2 theorem: a history event with truthy EPS
fields and a calendar event with null EPS fields on the same key. -/
theorem dedup_backfill_invariant_witness :
    ([⟨"AAPL", "Apple Inc", 20000, some 19996, "Q1 FY25", some "2.10",
        some "2.15", true⟩] : List EarningsEvent).filter
      (fun e => decide (eventKey e = ((20000 : Int), "AAPL"))) =
      [⟨"AAPL", "Apple Inc", 20000, some 19996, "Q1 FY25", some "2.10",
        some "2.15", true⟩] ∧
    ([⟨"AAPL", "Apple Inc", 20000, none, "Q1 FY25", none, none, true⟩] :
        List EarningsEvent).filter
      (fun e => decide (eventKey e = ((20000 : Int), "AAPL"))) =
      [⟨"AAPL", "Apple Inc", 20000, none, "Q1 FY25", none, none, true⟩] ∧
    ∃ f, alookup (dedupEvents
        [⟨"AAPL", "Apple Inc", 20000, some 19996, "Q1 FY25", some "2.10",
          some "2.15", true⟩]
        [⟨"AAPL", "Apple Inc", 20000, none, "Q1 FY25", none, none, true⟩])
        ((20000 : Int), "AAPL") = some f ∧
      f.estimatedEPS = (if strTruthy (none : Option String) then none
        else if strTruthy (some "2.10" : Option String) then some "2.10"
        else none) ∧
      f.reportedEPS = (if strTruthy (none : Option String) then none
        else if strTruthy (some "2.15" : Option String) then some "2.15"
        else none) ∧
      strTruthy f.estimatedEPS =
        (strTruthy (none : Option String) || strTruthy (some "2.10" : Option String)) ∧
      strTruthy f.reportedEPS =
        (strTruthy (none : Option String) || strTruthy (some "2.15" : Option String)) ∧
      f.ticker = "AAPL" ∧ f.companyName = "Apple Inc" ∧
      f.reportDay = 20000 ∧ f.label = "Q1 FY25" ∧
      f.fiscalDateEnding = none ∧ f.isPast = true :=
  ⟨by decide, by decide,
    dedup_backfill_invariant
      [⟨"AAPL", "Apple Inc", 20000, some 19996, "Q1 FY25", some "2.10",
        some "2.15", true⟩]
      [⟨"AAPL", "Apple Inc", 20000, none, "Q1 FY25", none, none, true⟩]
      ((20000 : Int), "AAPL")
      ⟨"AAPL", "Apple Inc", 20000, some 19996, "Q1 FY25", some "2.10",
        some "2.15", true⟩
      ⟨"AAPL", "Apple Inc", 20000, none, "Q1 FY25", none, none, true⟩
      (by decide) (by decide)⟩

/-- C2, counterexample to the claim as stated: deduplicating a history
event (reported day 20000, fiscal period end day 19996) with a calendar
event for the same key whose CSV row had no fiscal-date cell produces a
merged event with `fiscalDateEnding = null`, although the history source
supplied day 19996 — a null field that one source individually supplied.
Both events are produced by the pipeline constructors from one history
feed entry and one calendar row. -/
theorem dedup_loses_fiscal_date :
    ((mkHistoryEvent "AAPL" "Apple Inc" 20100
        ⟨some 19996, some 20000, some "2.10", some "2.15"⟩).map
      (fun e => e.fiscalDateEnding)) = some (some 19996) ∧
    ((mkHistoryEvent "AAPL" "Apple Inc" 20100
        ⟨some 19996, some 20000, some "2.10", some "2.15"⟩).map eventKey) =
      some ((20000 : Int), "AAPL") ∧
    ((mkCalendarEvent "AAPL" "Apple Inc"
        (buildReconCtx 20100 [⟨some 19996, some 20000, some "2.10", some "2.15"⟩])
        ⟨some 20000, none, none⟩).map eventKey) = some ((20000 : Int), "AAPL") ∧
    ((alookup (dedupEvents
        (mkHistoryEvent "AAPL" "Apple Inc" 20100
          ⟨some 19996, some 20000, some "2.10", some "2.15"⟩).toList
        (mkCalendarEvent "AAPL" "Apple Inc"
          (buildReconCtx 20100 [⟨some 19996, some 20000, some "2.10", some "2.15"⟩])
          ⟨some 20000, none, none⟩).toList)
        ((20000 : Int), "AAPL")).map (fun f => f.fiscalDateEnding)) =
      some none := by
  refine ⟨by decide, by decide, by decide, by decide⟩

/-! ### EPS resolution lemmas (C1) -/
theorem orNull_of_truthy (o : Option String) (h : strTruthy o = true) :
    orNull o = o := by
  rw [orNull, if_pos h]

theorem orNull_none_of_not_truthy (o : Option String)
    (h : strTruthy (orNull o) = false) : orNull o = none := by
  by_cases ho : strTruthy o = true
  · rw [orNull, if_pos ho] at h ⊢
    rw [ho] at h
    cases h
  · rw [orNull, if_neg ho]

theorem estStage1_truthy (row : CalRow) (v : String)
    (h : estStage1 row = some v) : strTruthy (some v) = true := by
  rw [estStage1] at h
  split at h
  · cases h
  · split at h
    · cases h
    · split at h
      · next hcond =>
          injection h with h
          subst h
          simp [strTruthy]
          exact hcond.1
      · cases h

theorem estStage1_none_of_not_truthy (row : CalRow)
    (h : strTruthy (estStage1 row) = false) : estStage1 row = none := by
  cases he : estStage1 row with
  | none => rfl
  | some v => rw [he, estStage1_truthy row v he] at h; cases h

theorem estStage2_none_of_not_truthy (ctx : ReconCtx) (row : CalRow) (d : Int)
    (h : strTruthy (estStage2 ctx row d) = false) :
    estStage2 ctx row d = none := by
  cases heq : alookup ctx.mapByReportDate d with
  | none =>
      simp only [estStage2, heq] at h ⊢
      exact estStage1_none_of_not_truthy row h
  | some info =>
      simp only [estStage2, heq] at h ⊢
      by_cases ht : strTruthy (estStage1 row) = true
      · rw [if_pos ht] at h
        rw [ht] at h
        cases h
      · rw [if_neg ht] at h ⊢
        exact orNull_none_of_not_truthy _ h

theorem estStage3_none_of_not_truthy (ctx : ReconCtx) (row : CalRow) (d : Int)
    (h : strTruthy (estStage3 ctx row d) = false) :
    estStage3 ctx row d = none := by
  cases hf : row.fiscalDay with
  | none =>
      simp only [estStage3, hf] at h ⊢
      exact estStage2_none_of_not_truthy ctx row d h
  | some fd =>
      cases heq : alookup ctx.mapByFiscal fd with
      | none =>
          simp only [estStage3, hf, heq] at h ⊢
          exact estStage2_none_of_not_truthy ctx row d h
      | some info =>
          simp only [estStage3, hf, heq] at h ⊢
          by_cases ht : strTruthy (estStage2 ctx row d) = true
          · rw [if_pos ht] at h
            rw [ht] at h
            cases h
          · rw [if_neg ht] at h ⊢
            exact orNull_none_of_not_truthy _ h

theorem repStage2_none_of_not_truthy (ctx : ReconCtx) (d : Int)
    (h : strTruthy (repStage2 ctx d) = false) : repStage2 ctx d = none := by
  cases heq : alookup ctx.mapByReportDate d with
  | none => simp only [repStage2, heq]
  | some info =>
      simp only [repStage2, heq] at h ⊢
      exact orNull_none_of_not_truthy _ h

theorem repStage3_none_of_not_truthy (ctx : ReconCtx) (row : CalRow) (d : Int)
    (h : strTruthy (repStage3 ctx row d) = false) :
    repStage3 ctx row d = none := by
  cases hf : row.fiscalDay with
  | none =>
      simp only [repStage3, hf] at h ⊢
      exact repStage2_none_of_not_truthy ctx d h
  | some fd =>
      cases heq : alookup ctx.mapByFiscal fd with
      | none =>
          simp only [repStage3, hf, heq] at h ⊢
          exact repStage2_none_of_not_truthy ctx d h
      | some info =>
          simp only [repStage3, hf, heq] at h ⊢
          by_cases ht : strTruthy (repStage2 ctx d) = true
          · rw [if_pos ht] at h
            rw [ht] at h
            cases h
          · rw [if_neg ht] at h ⊢
            exact orNull_none_of_not_truthy _ h

theorem estStage2_of_stage1_some (ctx : ReconCtx) (row : CalRow) (d : Int)
    (v : String) (h : estStage1 row = some v) :
    estStage2 ctx row d = some v := by
  have ht : strTruthy (estStage1 row) = true := by
    rw [h]; exact estStage1_truthy row v h
  cases heq : alookup ctx.mapByReportDate d with
  | none => simp only [estStage2, heq]; exact h
  | some info =>
      simp only [estStage2, heq]
      rw [if_pos ht]
      exact h

theorem estStage3_of_truthy (ctx : ReconCtx) (row : CalRow) (d : Int)
    (h : strTruthy (estStage2 ctx row d) = true) :
    estStage3 ctx row d = estStage2 ctx row d := by
  cases hf : row.fiscalDay with
  | none => simp only [estStage3, hf]
  | some fd =>
      cases heq : alookup ctx.mapByFiscal fd with
      | none => simp only [estStage3, hf, heq]
      | some info =>
          simp only [estStage3, hf, heq]
          rw [if_pos h]

theorem estStage5_of_truthy (ctx : ReconCtx) (row : CalRow) (d : Int)
    (h : strTruthy (estStage3 ctx row d) = true) :
    estStage5 ctx row d = estStage3 ctx row d := by
  simp [estStage5, h]

theorem repStage3_of_truthy (ctx : ReconCtx) (row : CalRow) (d : Int)
    (h : strTruthy (repStage2 ctx d) = true) :
    repStage3 ctx row d = repStage2 ctx d := by
  cases hf : row.fiscalDay with
  | none => simp only [repStage3, hf]
  | some fd =>
      cases heq : alookup ctx.mapByFiscal fd with
      | none => simp only [repStage3, hf, heq]
      | some info =>
          simp only [repStage3, hf, heq]
          rw [if_pos h]

theorem repStage4_of_truthy (ctx : ReconCtx) (row : CalRow) (d : Int)
    (h : strTruthy (repStage3 ctx row d) = true) :
    repStage4 ctx row d = repStage3 ctx row d := by
  simp [repStage4, h]

/-- C1 (amended): for every processed calendar row (date `d`), the emitted
estimated/reported EPS are resolved with this precedence: (1) a valid
(non-empty, non-`N/A`, non-`null`) value in the row's estimated-EPS cell;
(2) the history lookup keyed by the row's normalized date; (3) the lookup
keyed by its normalized fiscal-period-end date; (4) for a past event still
missing a reported EPS, the FIRST entry in the historical list's iteration
order whose report day is within 5 days of the row's date and carries a
usable reported EPS (not the nearest such entry); (5) for a future event
still missing an estimate, the most recent historical entry (maximal
report day) with a usable estimated EPS that is future-dated or less than
90 days in the past — and `none` when no step applies. -/
theorem resolveEPS_precedence (ctx : ReconCtx) (row : CalRow) (d : Int) :
    (∀ v, estStage1 row = some v → (resolveEPSAt ctx row d).1 = some v) ∧
    (estStage1 row = none →
      ∀ info, alookup ctx.mapByReportDate d = some info →
        strTruthy info.estimatedEPS = true →
        (resolveEPSAt ctx row d).1 = info.estimatedEPS) ∧
    (strTruthy (estStage2 ctx row d) = false →
      ∀ fd info, row.fiscalDay = some fd →
        alookup ctx.mapByFiscal fd = some info →
        strTruthy info.estimatedEPS = true →
        (resolveEPSAt ctx row d).1 = info.estimatedEPS) ∧
    (strTruthy (estStage3 ctx row d) = false →
      isPastDay d ctx.nowDay = false →
      (∀ e ∈ ctx.allEntries, futureEstPred ctx.nowDay e = false) →
      (resolveEPSAt ctx row d).1 = none) ∧
    (strTruthy (estStage3 ctx row d) = false →
      isPastDay d ctx.nowDay = false →
      ∀ e0, e0 ∈ ctx.allEntries → futureEstPred ctx.nowDay e0 = true →
      ∃ e, e ∈ ctx.allEntries ∧ futureEstPred ctx.nowDay e = true ∧
        (resolveEPSAt ctx row d).1 = e.estimatedEPS ∧
        ∀ x ∈ ctx.allEntries, futureEstPred ctx.nowDay x = true →
          x.day ≤ e.day) ∧
    (∀ info, alookup ctx.mapByReportDate d = some info →
      strTruthy info.reportedEPS = true →
      (resolveEPSAt ctx row d).2 = info.reportedEPS) ∧
    (strTruthy (repStage2 ctx d) = false →
      ∀ fd info, row.fiscalDay = some fd →
        alookup ctx.mapByFiscal fd = some info →
        strTruthy info.reportedEPS = true →
        (resolveEPSAt ctx row d).2 = info.reportedEPS) ∧
    (strTruthy (repStage3 ctx row d) = false →
      isPastDay d ctx.nowDay = true →
      (resolveEPSAt ctx row d).2 =
        (match ctx.allEntries.find? (within5Pred d) with
         | some e => e.reportedEPS
         | none => none)) := by
  refine ⟨?_, ?_, ?_, ?_, ?_, ?_, ?_, ?_⟩
  · intro v hv
    have h2 := estStage2_of_stage1_some ctx row d v hv
    have ht2 : strTruthy (estStage2 ctx row d) = true := by
      rw [h2]; exact estStage1_truthy row v hv
    have h3 := estStage3_of_truthy ctx row d ht2
    have ht3 : strTruthy (estStage3 ctx row d) = true := by rw [h3]; exact ht2
    have h5 := estStage5_of_truthy ctx row d ht3
    simp only [resolveEPSAt]
    rw [h5, h3, h2]
  · intro h1 info hinfo htr
    have hfalse : ¬ strTruthy (estStage1 row) = true := by
      rw [h1]; simp [strTruthy]
    have h2 : estStage2 ctx row d = info.estimatedEPS := by
      simp only [estStage2, hinfo]
      rw [if_neg hfalse]
      exact orNull_of_truthy _ htr
    have ht2 : strTruthy (estStage2 ctx row d) = true := by rw [h2]; exact htr
    have h3 := estStage3_of_truthy ctx row d ht2
    have ht3 : strTruthy (estStage3 ctx row d) = true := by rw [h3]; exact ht2
    have h5 := estStage5_of_truthy ctx row d ht3
    simp only [resolveEPSAt]
    rw [h5, h3, h2]
  · intro h2f fd info hfd hinfo htr
    have h3 : estStage3 ctx row d = info.estimatedEPS := by
      simp only [estStage3, hfd, hinfo]
      rw [if_neg (by simp [h2f])]
      exact orNull_of_truthy _ htr
    have ht3 : strTruthy (estStage3 ctx row d) = true := by rw [h3]; exact htr
    have h5 := estStage5_of_truthy ctx row d ht3
    simp only [resolveEPSAt]
    rw [h5, h3]
  · intro h3f hpast hall
    have h3 : estStage3 ctx row d = none :=
      estStage3_none_of_not_truthy ctx row d h3f
    simp only [resolveEPSAt]
    by_cases hemp : ctx.allEntries.isEmpty = true
    · simp [estStage5, h3f, hpast, hemp, h3]
    · have hfind : (sortByKey (fun e => -e.day) ctx.allEntries).find?
          (futureEstPred ctx.nowDay) = none := by
        apply List.find?_eq_none.mpr
        intro x hx
        have hxmem : x ∈ ctx.allEntries := (mem_sortByKey _ x _).mp hx
        simp [hall x hxmem]
      simp [estStage5, h3f, hpast, hemp, hfind, h3]
  · intro h3f hpast e0 he0 hpred
    have hemp : ctx.allEntries.isEmpty = false := by
      cases hE : ctx.allEntries with
      | nil => rw [hE] at he0; cases he0
      | cons a l => rfl
    obtain ⟨e, hfind⟩ : ∃ e, (sortByKey (fun x => -x.day) ctx.allEntries).find?
        (futureEstPred ctx.nowDay) = some e := by
      cases hf : (sortByKey (fun x => -x.day) ctx.allEntries).find?
          (futureEstPred ctx.nowDay) with
      | some e => exact ⟨e, rfl⟩
      | none =>
          exfalso
          have := List.find?_eq_none.mp hf e0 ((mem_sortByKey _ e0 _).mpr he0)
          rw [hpred] at this
          exact this rfl
    have hsorted : (sortByKey (fun x => -x.day) ctx.allEntries).Pairwise
        (fun a b => b.day ≤ a.day) := by
      have := pairwise_sortByKey (fun x : AllEntry => -x.day) ctx.allEntries
      exact this.imp (fun h => by omega)
    obtain ⟨hmem, hpe, hmax⟩ :=
      find_pairwise_max (fun e => e.day) (futureEstPred ctx.nowDay) _ hsorted e hfind
    refine ⟨e, (mem_sortByKey _ e _).mp hmem, hpe, ?_, ?_⟩
    · simp only [resolveEPSAt]
      simp [estStage5, h3f, hpast, hemp, hfind]
    · intro x hx hpx
      exact hmax x ((mem_sortByKey _ x _).mpr hx) hpx
  · intro info hinfo htr
    have h2 : repStage2 ctx d = info.reportedEPS := by
      simp only [repStage2, hinfo]
      exact orNull_of_truthy _ htr
    have ht2 : strTruthy (repStage2 ctx d) = true := by rw [h2]; exact htr
    have h3 := repStage3_of_truthy ctx row d ht2
    have ht3 : strTruthy (repStage3 ctx row d) = true := by rw [h3]; exact ht2
    have h4 := repStage4_of_truthy ctx row d ht3
    simp only [resolveEPSAt]
    rw [h4, h3, h2]
  · intro h2f fd info hfd hinfo htr
    have h3 : repStage3 ctx row d = info.reportedEPS := by
      simp only [repStage3, hfd, hinfo]
      rw [if_neg (by simp [h2f])]
      exact orNull_of_truthy _ htr
    have ht3 : strTruthy (repStage3 ctx row d) = true := by rw [h3]; exact htr
    have h4 := repStage4_of_truthy ctx row d ht3
    simp only [resolveEPSAt]
    rw [h4, h3]
  · intro h3f hpast
    have h3 : repStage3 ctx row d = none :=
      repStage3_none_of_not_truthy ctx row d h3f
    simp only [resolveEPSAt]
    by_cases hemp : ctx.allEntries.isEmpty = true
    · have hE : ctx.allEntries = [] := by
        cases hE : ctx.allEntries with
        | nil => rfl
        | cons a l => rw [hE] at hemp; cases hemp
      rw [hE]
      simp [repStage4, h3f, hpast, hE, h3, List.find?]
    · cases hfind : ctx.allEntries.find? (within5Pred d) with
      | some e => simp [repStage4, h3f, hpast, hemp, hfind]
      | none => simp [repStage4, h3f, hpast, hemp, hfind, h3]

/-- Witness for the amended C1 theorem: step (1) fires for a calendar row
carrying the estimate `3.14`, and step (2) delivers the reported EPS
`2.15` from the history map for a row whose date hits the map. -/
theorem resolveEPS_precedence_witness :
    (estStage1 ⟨some 20000, none, some "3.14"⟩ = some "3.14") ∧
    ((resolveEPSAt (buildReconCtx 20100 []) ⟨some 20000, none, some "3.14"⟩
        20000).1 = some "3.14") ∧
    (alookup (buildReconCtx 20100
        [⟨some 19996, some 20000, some "2.10", some "2.15"⟩]).mapByReportDate
      20000 = some ⟨some "2.10", some "2.15"⟩) ∧
    (strTruthy (some "2.15") = true) ∧
    ((resolveEPSAt (buildReconCtx 20100
        [⟨some 19996, some 20000, some "2.10", some "2.15"⟩])
      ⟨some 20000, none, none⟩ 20000).2 = some "2.15") :=
  ⟨by decide,
   (resolveEPS_precedence (buildReconCtx 20100 [])
     ⟨some 20000, none, some "3.14"⟩ 20000).1 "3.14" (by decide),
   by decide, by decide,
   (resolveEPS_precedence (buildReconCtx 20100
       [⟨some 19996, some 20000, some "2.10", some "2.15"⟩])
     ⟨some 20000, none, none⟩ 20000).2.2.2.2.2.1
     ⟨some "2.10", some "2.15"⟩ (by decide) (by decide)⟩

/-- C1, counterexample to the claim as stated: with history entries
reported on days 20005 then 20001 (iteration order) and a past calendar
row dated day 20000 whose EPS is found nowhere else, the code resolves
`reportedEPS` to `9.99` — the FIRST entry within 5 days in iteration
order (distance 5) — while the NEAREST entry within 5 days is the one at
day 20001 (distance 1) carrying `1.11`, which the claim requires. -/
theorem resolveEPS_not_nearest :
    ((resolveEPSAt (buildReconCtx 20100
        [⟨none, some 20005, none, some "9.99"⟩,
         ⟨none, some 20001, none, some "1.11"⟩])
      ⟨some 20000, none, none⟩ 20000).2 = some "9.99") ∧
    ((nearestUsableRepWithin5 (buildReconCtx 20100
        [⟨none, some 20005, none, some "9.99"⟩,
         ⟨none, some 20001, none, some "1.11"⟩]).allEntries
      20000).map (fun e => e.reportedEPS) = some (some "1.11")) ∧
    (isPastDay 20000 (buildReconCtx 20100
        [⟨none, some 20005, none, some "9.99"⟩,
         ⟨none, some 20001, none, some "1.11"⟩]).nowDay = true) := by
  refine ⟨by decide, by decide, by decide⟩

theorem monthlyRollup_lookup (cutoff : Int) (k : Int × Nat) :
    ∀ (l : List TsEntry) (m : List ((Int × Nat) × MonthAgg)),
      alookup (l.foldl (rollStep cutoff) m) k =
        (monthEntries cutoff k l).foldl (fun o e => some (rollOne o e))
          (alookup m k) := by
  intro l
  induction l with
  | nil => intro m; rfl
  | cons e l ih =>
      intro m
      by_cases hw : cutoff ≤ e.ts
      · by_cases hk : monthKeyOf e = k
        · have : monthEntries cutoff k (e :: l) = e :: monthEntries cutoff k l := by
            simp [monthEntries, List.filter, hw, hk]
          rw [this]
          simp only [List.foldl_cons, rollStep, if_pos hw]
          rw [ih]
          rw [hk, alookup_aset_self]
        · have : monthEntries cutoff k (e :: l) = monthEntries cutoff k l := by
            simp [monthEntries, List.filter, hw, hk]
          rw [this]
          simp only [List.foldl_cons, rollStep, if_pos hw]
          rw [ih]
          rw [alookup_aset_other _ _ _ _ (fun hkk => hk hkk.symm)]
      · have : monthEntries cutoff k (e :: l) = monthEntries cutoff k l := by
          simp [monthEntries, List.filter, hw]
        rw [this]
        simp only [List.foldl_cons, rollStep, if_neg hw]
        exact ih m

theorem getLast?_cons_ne_none {α : Type} (b : α) (t : List α) :
    (b :: t).getLast? ≠ none := by
  induction t generalizing b with
  | nil => simp [List.getLast?]
  | cons c t ih => rw [List.getLast?_cons_cons]; exact ih c

theorem rollFold_props :
    ∀ (rest : List TsEntry) (a0 a : MonthAgg),
      rest.foldl (fun o e => some (rollOne o e)) (some a0) = some a →
      (a0.high ≤ a.high ∧ ∀ e ∈ rest, e.bar.high ≤ a.high) ∧
      (a.high = a0.high ∨ ∃ e ∈ rest, a.high = e.bar.high) ∧
      (a.low ≤ a0.low ∧ ∀ e ∈ rest, a.low ≤ e.bar.low) ∧
      (a.low = a0.low ∨ ∃ e ∈ rest, a.low = e.bar.low) ∧
      (match rest.getLast? with
       | some last => a.close = last.bar.close
       | none => a.close = a0.close) := by
  intro rest
  induction rest with
  | nil =>
      intro a0 a h
      injection h with h
      subst h
      refine ⟨⟨le_refl _, by simp⟩, Or.inl rfl, ⟨le_refl _, by simp⟩,
        Or.inl rfl, ?_⟩
      simp [List.getLast?]
  | cons e rest ih =>
      intro a0 a h
      simp only [List.foldl_cons] at h
      obtain ⟨⟨hh0, hhall⟩, hhatt, ⟨hl0, hlall⟩, hlatt, hclose⟩ :=
        ih (rollOne (some a0) e) a h
      have hmax : (rollOne (some a0) e).high = max a0.high e.bar.high := rfl
      have hmin : (rollOne (some a0) e).low = min a0.low e.bar.low := rfl
      have hcl : (rollOne (some a0) e).close = e.bar.close := rfl
      refine ⟨⟨?_, ?_⟩, ?_, ⟨?_, ?_⟩, ?_, ?_⟩
      · rw [hmax] at hh0
        exact le_trans (le_max_left _ _) hh0
      · intro x hx
        rcases List.mem_cons.mp hx with rfl | hx
        · rw [hmax] at hh0
          exact le_trans (le_max_right _ _) hh0
        · exact hhall x hx
      · rcases hhatt with hatt | ⟨x, hx, hax⟩
        · rw [hmax] at hatt
          rcases max_choice a0.high e.bar.high with hm | hm
          · exact Or.inl (hatt.trans hm)
          · exact Or.inr ⟨e, List.mem_cons_self _ _, hatt.trans hm⟩
        · exact Or.inr ⟨x, List.mem_cons_of_mem _ hx, hax⟩
      · rw [hmin] at hl0
        exact le_trans hl0 (min_le_left _ _)
      · intro x hx
        rcases List.mem_cons.mp hx with rfl | hx
        · rw [hmin] at hl0
          exact le_trans hl0 (min_le_right _ _)
        · exact hlall x hx
      · rcases hlatt with hatt | ⟨x, hx, hax⟩
        · rw [hmin] at hatt
          rcases min_choice a0.low e.bar.low with hm | hm
          · exact Or.inl (hatt.trans hm)
          · exact Or.inr ⟨e, List.mem_cons_self _ _, hatt.trans hm⟩
        · exact Or.inr ⟨x, List.mem_cons_of_mem _ hx, hax⟩
      · cases hr : rest.getLast? with
        | some last =>
            rw [hr] at hclose
            have : (e :: rest).getLast? = some last := by
              cases rest with
              | nil => cases hr
              | cons b t => rw [List.getLast?_cons_cons]; exact hr
            rw [this]
            exact hclose
        | none =>
            rw [hr] at hclose
            have hrn : rest = [] := by
              cases rest with
              | nil => rfl
              | cons b t => exact absurd hr (getLast?_cons_ne_none b t)
            subst hrn
            simp [List.getLast?]
            rw [hclose, hcl]

/-- C4: every month present in the rollup map of `summarizeTimeSeries`
satisfies: its high is the maximum of that month's in-window daily highs,
its low the minimum of the daily lows, and its close the close of the
last in-window daily point of the month in iteration order over the input
entries. -/
theorem monthlyRollup_correct (cutoff : Int) (l : List TsEntry)
    (k : Int × Nat) (a : MonthAgg)
    (h : alookup (monthlyRollup cutoff l) k = some a) :
    (∀ e ∈ monthEntries cutoff k l, e.bar.high ≤ a.high) ∧
    (∃ e ∈ monthEntries cutoff k l, a.high = e.bar.high) ∧
    (∀ e ∈ monthEntries cutoff k l, a.low ≤ e.bar.low) ∧
    (∃ e ∈ monthEntries cutoff k l, a.low = e.bar.low) ∧
    (∃ last, (monthEntries cutoff k l).getLast? = some last ∧
      a.close = last.bar.close) := by
  rw [monthlyRollup, monthlyRollup_lookup] at h
  cases hS : monthEntries cutoff k l with
  | nil =>
      rw [hS] at h
      cases h
  | cons e0 rest =>
      rw [hS] at h
      simp only [List.foldl_cons] at h
      obtain ⟨⟨hh0, hhall⟩, hhatt, ⟨hl0, hlall⟩, hlatt, hclose⟩ :=
        rollFold_props rest (rollOne none e0) a h
      have hih : (rollOne none e0).high = e0.bar.high := rfl
      have hil : (rollOne none e0).low = e0.bar.low := rfl
      have hic : (rollOne none e0).close = e0.bar.close := rfl
      refine ⟨?_, ?_, ?_, ?_, ?_⟩
      · intro x hx
        rcases List.mem_cons.mp hx with rfl | hx
        · rw [hih] at hh0; exact hh0
        · exact hhall x hx
      · rcases hhatt with hatt | ⟨x, hx, hax⟩
        · rw [hih] at hatt
          exact ⟨e0, List.mem_cons_self _ _, hatt⟩
        · exact ⟨x, List.mem_cons_of_mem _ hx, hax⟩
      · intro x hx
        rcases List.mem_cons.mp hx with rfl | hx
        · rw [hil] at hl0; exact hl0
        · exact hlall x hx
      · rcases hlatt with hatt | ⟨x, hx, hax⟩
        · rw [hil] at hatt
          exact ⟨e0, List.mem_cons_self _ _, hatt⟩
        · exact ⟨x, List.mem_cons_of_mem _ hx, hax⟩
      · cases hr : rest.getLast? with
        | some last =>
            rw [hr] at hclose
            refine ⟨last, ?_, hclose⟩
            cases rest with
            | nil => cases hr
            | cons b t => rw [List.getLast?_cons_cons]; exact hr
        | none =>
            rw [hr] at hclose
            have hrn : rest = [] := by
              cases rest with
              | nil => rfl
              | cons b t => exact absurd hr (getLast?_cons_ne_none b t)
            subst hrn
            refine ⟨e0, by simp [List.getLast?], by rw [hclose, hic]⟩

/-- Witness for C4: two January-2024 entries roll up to high 12, low 5 and
the second entry's close 8. -/
theorem monthlyRollup_correct_witness :
    (alookup (monthlyRollup 0
        [⟨100, 2024, 0, ⟨10, 5, 7⟩⟩, ⟨200, 2024, 0, ⟨12, 6, 8⟩⟩])
      ((2024 : Int), 0) = some ⟨12, 5, 8⟩) ∧
    ((∀ e ∈ monthEntries 0 ((2024 : Int), 0)
        [⟨100, 2024, 0, ⟨10, 5, 7⟩⟩, ⟨200, 2024, 0, ⟨12, 6, 8⟩⟩],
      e.bar.high ≤ (12 : Rat)) ∧
    (∃ e ∈ monthEntries 0 ((2024 : Int), 0)
        [⟨100, 2024, 0, ⟨10, 5, 7⟩⟩, ⟨200, 2024, 0, ⟨12, 6, 8⟩⟩],
      (12 : Rat) = e.bar.high) ∧
    (∀ e ∈ monthEntries 0 ((2024 : Int), 0)
        [⟨100, 2024, 0, ⟨10, 5, 7⟩⟩, ⟨200, 2024, 0, ⟨12, 6, 8⟩⟩],
      (5 : Rat) ≤ e.bar.low) ∧
    (∃ e ∈ monthEntries 0 ((2024 : Int), 0)
        [⟨100, 2024, 0, ⟨10, 5, 7⟩⟩, ⟨200, 2024, 0, ⟨12, 6, 8⟩⟩],
      (5 : Rat) = e.bar.low) ∧
    (∃ last, (monthEntries 0 ((2024 : Int), 0)
        [⟨100, 2024, 0, ⟨10, 5, 7⟩⟩, ⟨200, 2024, 0, ⟨12, 6, 8⟩⟩]).getLast? =
        some last ∧ (8 : Rat) = last.bar.close)) :=
  ⟨by decide,
   monthlyRollup_correct 0
     [⟨100, 2024, 0, ⟨10, 5, 7⟩⟩, ⟨200, 2024, 0, ⟨12, 6, 8⟩⟩]
     ((2024 : Int), 0) ⟨12, 5, 8⟩ (by decide)⟩

/-- C8 (amended): a provider response whose `Note` field is non-empty is
mapped (on every endpoint, since all of them share this function) to the
uniform rate-limit error value `{error: 'Rate limit exceeded', Note}`
without throwing, and a transport failure is likewise caught and mapped
to the `{error: message}` shape. -/
theorem fetchAV_markers (data : AVJson) (msg : String)
    (hnote : strTruthy data.note = true) :
    fetchAlphaVantageData (.success data) =
      .errorResult "Rate limit exceeded" data.note ∧
    fetchAlphaVantageData (.failure msg) = .errorResult msg none ∧
    (fetchAlphaVantageData (.success data)).isErrorValue = true ∧
    (fetchAlphaVantageData (.failure msg)).isErrorValue = true := by
  refine ⟨?_, rfl, ?_, rfl⟩
  · simp [fetchAlphaVantageData, hnote]
  · simp [fetchAlphaVantageData, hnote, AVResult.isErrorValue]

/-- Witness for the amended C8 theorem at a concrete rate-limited response
and a concrete transport failure. -/
theorem fetchAV_markers_witness :
    (strTruthy (some "Thank you for using Alpha Vantage!") = true) ∧
    (fetchAlphaVantageData
        (.success ⟨some "Thank you for using Alpha Vantage!", none, none⟩) =
      .errorResult "Rate limit exceeded"
        (some "Thank you for using Alpha Vantage!") ∧
    fetchAlphaVantageData (.failure "fetch failed") =
      .errorResult "fetch failed" none ∧
    (fetchAlphaVantageData
        (.success ⟨some "Thank you for using Alpha Vantage!", none, none⟩)).isErrorValue = true ∧
    (fetchAlphaVantageData (.failure "fetch failed")).isErrorValue = true) :=
  ⟨by decide,
   fetchAV_markers ⟨some "Thank you for using Alpha Vantage!", none, none⟩
     "fetch failed" (by decide)⟩

/-- C8, counterexample to the claim as stated: a JSON response containing
a `Note` field whose value is the empty string is falsy in the
`if (data['Note'])` test, so the operation returns the data unchanged —
not a rate-limit error value — although the response contains a `Note`
field. -/
theorem fetchAV_empty_note_not_error :
    fetchAlphaVantageData (.success ⟨some "", none, none⟩) =
      .ok ⟨some "", none, none⟩ ∧
    (fetchAlphaVantageData (.success ⟨some "", none, none⟩)).isErrorValue =
      false ∧
    (⟨some "", none, none⟩ : AVJson).note ≠ none := by
  refine ⟨by decide, by decide, by decide⟩

theorem getStatus_deleteStatus (store : List (String × String))
    (requestId : String) :
    getStatus (deleteStatus store requestId) requestId = none := by
  induction store with
  | nil => rfl
  | cons p l ih =>
      by_cases hp : p.1 = requestId
      · simp only [deleteStatus, List.filter, hp]
        simpa [deleteStatus] using ih
      · obtain ⟨k, v⟩ := p
        simp only at hp
        have hk : requestId ≠ k := fun h => hp h.symm
        simp only [deleteStatus, List.filter, hp, decide_False, Bool.not_false,
          if_true]
        simp only [getStatus, alookup, if_neg hk]
        simpa [getStatus, deleteStatus] using ih

/-- C9 (amended): polling with a non-empty `requestId` that is not in the
store — never set, or removed by `deleteStatus` — returns HTTP 200 with
`status` equal to the empty string, never a 404 or an error; a 400 error
is returned exactly when the `requestId` parameter is absent or empty. -/
theorem statusRoute_unknown_id (store : List (String × String))
    (rid : String) (hne : rid ≠ "") (hmiss : getStatus store rid = none) :
    statusRouteGET store (some rid) = ⟨200, none, some ""⟩ ∧
    statusRouteGET store none = ⟨400, some "Missing requestId", none⟩ ∧
    ∀ st id, statusRouteGET (deleteStatus st id) (some id) =
      (if id = "" then ⟨400, some "Missing requestId", none⟩
       else ⟨200, none, some ""⟩) := by
  refine ⟨?_, rfl, ?_⟩
  · simp [statusRouteGET, hne, hmiss]
  · intro st id
    by_cases hid : id = ""
    · simp [statusRouteGET, hid]
    · simp [statusRouteGET, hid, getStatus_deleteStatus]

/-- Witness for the amended C9 theorem at a concrete store and id. -/
theorem statusRoute_unknown_id_witness :
    (("req-42" : String) ≠ "") ∧
    (getStatus [("req-1", "Fetching company overview...")] "req-42" = none) ∧
    (statusRouteGET [("req-1", "Fetching company overview...")]
        (some "req-42") = ⟨200, none, some ""⟩ ∧
    statusRouteGET [("req-1", "Fetching company overview...")] none =
      ⟨400, some "Missing requestId", none⟩ ∧
    ∀ st id, statusRouteGET (deleteStatus st id) (some id) =
      (if id = "" then ⟨400, some "Missing requestId", none⟩
       else ⟨200, none, some ""⟩)) :=
  ⟨by decide, by decide,
   statusRoute_unknown_id [("req-1", "Fetching company overview...")]
     "req-42" (by decide) (by decide)⟩

/-- C9, counterexample to the claim as stated: the empty-string
`requestId` is a requestId never present in the store, and the query
parameter is present (not missing), yet the route answers 400 — because
`if (!requestId)` also fires on the empty string — contradicting both
the 200-with-empty-status guarantee and the said only-when-missing 400
condition. -/
theorem statusRoute_empty_id_400 :
    statusRouteGET [] (some "") = ⟨400, some "Missing requestId", none⟩ ∧
    (some "" ≠ (none : Option String)) ∧
    getStatus [] "" = none := by
  refine ⟨by decide, by decide, by decide⟩

/-- C6: the chart-data handler selects 5-minute bars for the 1-day window,
30-minute bars for the 1-week window and the daily feed for all longer
windows; every returned point's timestamp lies in
`[getDateRange(period).start, now]` and the returned list is sorted
ascending by timestamp; on a clean provider response the handler returns
exactly the filtered, sorted feed of the selected granularity (one
upstream call). -/
theorem chartData_window_sorted (t : TimeSeriesData) (p : TimePeriod)
    (i : FeedInterval) (now : Int) (tk : String)
    (provider : FeedInterval → TimeSeriesData)
    (hnote : strTruthy (provider (intervalFor p)).note = false)
    (herr : strTruthy (provider (intervalFor p)).errorMessage = false) :
    (intervalFor .d1 = .min5 ∧ intervalFor .w1 = .min30 ∧
      intervalFor .m1 = .daily ∧ intervalFor .m6 = .daily ∧
      intervalFor .y1 = .daily ∧ intervalFor .y3 = .daily) ∧
    (getDateRange p now).2 = now ∧
    (∀ pt ∈ filterTimeSeriesByPeriod t p i now,
      (getDateRange p now).1 ≤ pt.timestamp ∧ pt.timestamp ≤ now) ∧
    (filterTimeSeriesByPeriod t p i now).Pairwise
      (fun a b => a.timestamp ≤ b.timestamp) ∧
    chartDataRouteGET (some ()) (some tk) (some p) true now provider =
      (⟨200, none, filterTimeSeriesByPeriod (provider (intervalFor p)) p
        (intervalFor p) now⟩, [chartUrlFor tk (intervalFor p)]) := by
  have hend : (getDateRange p now).2 = now := by cases p <;> rfl
  refine ⟨⟨rfl, rfl, rfl, rfl, rfl, rfl⟩, hend, ?_, ?_, ?_⟩
  · intro pt hpt
    rw [filterTimeSeriesByPeriod] at hpt
    cases hs : seriesForKey t i with
    | none => rw [hs] at hpt; cases hpt
    | some pts =>
        rw [hs] at hpt
        have hmem := (mem_sortByKey _ pt _).mp hpt
        have := List.mem_filter.mp hmem
        obtain ⟨-, hcond⟩ := this
        simp only [Bool.and_eq_true, decide_eq_true_eq] at hcond
        exact ⟨hcond.1, hend ▸ hcond.2⟩
  · rw [filterTimeSeriesByPeriod]
    cases hs : seriesForKey t i with
    | none => exact List.Pairwise.nil
    | some pts => exact pairwise_sortByKey _ _
  · simp only [chartDataRouteGET, Bool.not_true, Bool.false_eq_true,
      if_false, hnote, herr]

/-- Witness for C6 at ticker `AAPL`, window `6m`, `now` = 2025-01-01. -/
theorem chartData_window_sorted_witness :
    (strTruthy (chartProvider0 (intervalFor .m6)).note = false) ∧
    (strTruthy (chartProvider0 (intervalFor .m6)).errorMessage = false) ∧
    ((intervalFor .d1 = .min5 ∧ intervalFor .w1 = .min30 ∧
      intervalFor .m1 = .daily ∧ intervalFor .m6 = .daily ∧
      intervalFor .y1 = .daily ∧ intervalFor .y3 = .daily) ∧
    (getDateRange .m6 1735689600000).2 = 1735689600000 ∧
    (∀ pt ∈ filterTimeSeriesByPeriod chartT0 .m6 .daily 1735689600000,
      (getDateRange .m6 1735689600000).1 ≤ pt.timestamp ∧
        pt.timestamp ≤ 1735689600000) ∧
    (filterTimeSeriesByPeriod chartT0 .m6 .daily 1735689600000).Pairwise
      (fun a b => a.timestamp ≤ b.timestamp) ∧
    chartDataRouteGET (some ()) (some "AAPL") (some .m6) true 1735689600000
        chartProvider0 =
      (⟨200, none, filterTimeSeriesByPeriod (chartProvider0 (intervalFor .m6))
        .m6 (intervalFor .m6) 1735689600000⟩,
        [chartUrlFor "AAPL" (intervalFor .m6)])) :=
  ⟨by decide, by decide,
   chartData_window_sorted chartT0 .m6 .daily 1735689600000 "AAPL"
     chartProvider0 (by decide) (by decide)⟩

theorem markerScan_keeps_zero (series : List (Int × Rat)) (eDay : Int) :
    ∀ (l : List Int) (s : MarkerScan), s.closestDiff = some 0 →
      l.foldl (markerScanStep series eDay) s = s := by
  intro l
  induction l with
  | nil => intro s _; rfl
  | cons i l ih =>
      intro s hs
      have hstep : markerScanStep series eDay s i = s := by
        rw [markerScanStep]
        cases alookup series (eDay + i) with
        | none => rfl
        | some close =>
            rw [hs]
            simp [diffLt]
      simp only [List.foldl_cons, hstep]
      exact ih s hs

theorem markerScan_pos (series : List (Int × Rat)) (eDay : Int) :
    ∀ (l : List Int) (s : MarkerScan), (∀ i ∈ l, i ≠ 0) →
      (s.closestDiff = none ∨ ∃ d, s.closestDiff = some d ∧ 0 < d) →
      ((l.foldl (markerScanStep series eDay) s).closestDiff = none ∨
        ∃ d, (l.foldl (markerScanStep series eDay) s).closestDiff = some d ∧
          0 < d) := by
  intro l
  induction l with
  | nil => intro s _ hs; exact hs
  | cons i l ih =>
      intro s hl hs
      have hi : i ≠ 0 := hl i (List.mem_cons_self _ _)
      have hl' : ∀ j ∈ l, j ≠ 0 := fun j hj => hl j (List.mem_cons_of_mem _ hj)
      simp only [List.foldl_cons]
      apply ih _ hl'
      cases hc : alookup series (eDay + i) with
      | none => simp only [markerScanStep, hc]; exact hs
      | some close =>
          simp only [markerScanStep, hc]
          by_cases hd : diffLt (i * msPerDay).natAbs s.closestDiff = true
          · rw [if_pos hd]
            refine Or.inr ⟨(i * msPerDay).natAbs, rfl, ?_⟩
            have : i * msPerDay ≠ 0 := by
              intro hz
              rcases mul_eq_zero.mp hz with hz | hz
              · exact hi hz
              · cases hz
            omega
          · rw [if_neg hd]
            exact hs

/-- C7, route side: a series entry on the exact earnings day wins the
±5-day scan with distance 0, regardless of every other series entry. -/
theorem findClosestPrice_exact (series : List (Int × Rat)) (eDay : Int)
    (c : Rat) (h : alookup series eDay = some c) :
    findClosestPrice series eDay = ⟨some 0, c, eDay⟩ := by
  have hsplit : dayOffsets = [-5, -4, -3, -2, -1] ++ 0 :: [1, 2, 3, 4, 5] := rfl
  rw [findClosestPrice, hsplit, List.foldl_append]
  set s1 := List.foldl (markerScanStep series eDay) ⟨none, 0, eDay⟩
    [-5, -4, -3, -2, -1] with hs1def
  have hs1 : s1.closestDiff = none ∨ ∃ d, s1.closestDiff = some d ∧ 0 < d := by
    rw [hs1def]
    exact markerScan_pos series eDay [-5, -4, -3, -2, -1]
      ⟨none, 0, eDay⟩ (by decide) (Or.inl rfl)
  have hlt : diffLt ((0 : Int) * msPerDay).natAbs s1.closestDiff = true := by
    rcases hs1 with hn | ⟨d, hd, hdpos⟩
    · rw [hn]; rfl
    · rw [hd]
      simp [diffLt]
      omega
  have hstep : markerScanStep series eDay s1 0 = ⟨some 0, c, eDay⟩ := by
    have h0 : eDay + (0 : Int) = eDay := by omega
    simp only [markerScanStep, h0, h, hlt, if_true]
    simp
  rw [List.foldl_cons, hstep]
  exact markerScan_keeps_zero series eDay [1, 2, 3, 4, 5] _ rfl

theorem chartMarker_keeps_zero (p : TimePeriod) (m : EarningsMarker) :
    ∀ (l : List ChartPoint) (s : Option Nat × Option ChartPoint),
      s.1 = some 0 → l.foldl (chartMarkerStep p m) s = s := by
  intro l
  induction l with
  | nil => intro s _; rfl
  | cons x l ih =>
      intro s hs
      have hstep : chartMarkerStep p m s x = s := by
        rw [chartMarkerStep, hs]
        by_cases hcond : (x.timestamp.fdiv msPerDay = m.date ∨
            (p ≠ .d1 ∧ p ≠ .w1 ∧
              (x.timestamp - m.timestamp).natAbs < 3 * 86400000))
        · rw [if_pos hcond]
          simp [diffLt]
        · rw [if_neg hcond]
      simp only [List.foldl_cons, hstep]
      exact ih s hs

theorem chartMarker_coh_step (p : TimePeriod) (m : EarningsMarker)
    (full : List ChartPoint) (s : Option Nat × Option ChartPoint)
    (x : ChartPoint) (hx : x ∈ full)
    (hcoh : s.1 = some 0 →
      ∃ q, s.2 = some q ∧ q.timestamp = m.timestamp ∧ q ∈ full) :
    (chartMarkerStep p m s x).1 = some 0 →
      ∃ q, (chartMarkerStep p m s x).2 = some q ∧
        q.timestamp = m.timestamp ∧ q ∈ full := by
  rw [chartMarkerStep]
  by_cases hcond : (x.timestamp.fdiv msPerDay = m.date ∨
      (p ≠ .d1 ∧ p ≠ .w1 ∧ (x.timestamp - m.timestamp).natAbs < 3 * 86400000))
  · rw [if_pos hcond]
    by_cases hd : diffLt (x.timestamp - m.timestamp).natAbs s.1 = true
    · rw [if_pos hd]
      intro h0
      simp only at h0
      injection h0 with h0
      have hts : x.timestamp = m.timestamp := by omega
      exact ⟨x, rfl, hts, hx⟩
    · rw [if_neg hd]
      exact hcoh
  · rw [if_neg hcond]
    exact hcoh

theorem chartMarker_finds (p : TimePeriod) (m : EarningsMarker)
    (full : List ChartPoint) (hm : m.timestamp = m.date * msPerDay)
    (pt0 : ChartPoint) (hts : pt0.timestamp = m.timestamp) :
    ∀ (l : List ChartPoint) (s : Option Nat × Option ChartPoint),
      (∀ x ∈ l, x ∈ full) →
      (s.1 = some 0 →
        ∃ q, s.2 = some q ∧ q.timestamp = m.timestamp ∧ q ∈ full) →
      pt0 ∈ l →
      ∃ q, (l.foldl (chartMarkerStep p m) s).2 = some q ∧
        q.timestamp = m.timestamp ∧ q ∈ full := by
  intro l
  induction l with
  | nil => intro s _ _ hpt0; cases hpt0
  | cons x l ih =>
      intro s hsub hcoh hpt0
      have hxfull : x ∈ full := hsub x (List.mem_cons_self _ _)
      have hsub' : ∀ y ∈ l, y ∈ full :=
        fun y hy => hsub y (List.mem_cons_of_mem _ hy)
      by_cases hxl : pt0 ∈ l
      · simp only [List.foldl_cons]
        exact ih (chartMarkerStep p m s x) hsub'
          (chartMarker_coh_step p m full s x hxfull hcoh) hxl
      · have hpx : pt0 = x := by
          rcases List.mem_cons.mp hpt0 with h | h
          · exact h
          · exact absurd h hxl
        subst hpx
        have hsame : pt0.timestamp.fdiv msPerDay = m.date := by
          rw [hts, hm]
          exact Int.mul_fdiv_cancel _ (by norm_num [msPerDay])
        have hdiff0 : (pt0.timestamp - m.timestamp).natAbs = 0 := by
          rw [hts]; omega
        by_cases hzero : s.1 = some 0
        · obtain ⟨q, hq2, hqts, hqf⟩ := hcoh hzero
          have hstep : chartMarkerStep p m s pt0 = s := by
            rw [chartMarkerStep, if_pos (Or.inl hsame), hdiff0, hzero]
            simp [diffLt]
          simp only [List.foldl_cons, hstep]
          rw [chartMarker_keeps_zero p m l s hzero]
          exact ⟨q, hq2, hqts, hqf⟩
        · have hlt : diffLt (pt0.timestamp - m.timestamp).natAbs s.1 = true := by
            rw [hdiff0]
            cases hs1 : s.1 with
            | none => rfl
            | some d =>
                have hd : d ≠ 0 := by
                  intro hd
                  subst hd
                  exact hzero hs1
                simp [diffLt]
                omega
          have hstep : chartMarkerStep p m s pt0 =
              (some 0, some pt0) := by
            rw [chartMarkerStep, if_pos (Or.inl hsame), if_pos hlt, hdiff0]
          simp only [List.foldl_cons, hstep]
          rw [chartMarker_keeps_zero p m l (some 0, some pt0) rfl]
          exact ⟨pt0, rfl, hts, hsub pt0 hpt0⟩

/-- C7: an earnings event whose date exactly equals a trading-day date
present in the price series is attached to that exact series point by
both marker builders: the route's ±5-day scan ends with distance 0, the
exact day and its price (and, inside the requested window with a positive
price, emits exactly that marker), and the chart component's matcher
returns the unique chart point carrying the marker's timestamp, preferred
over every other candidate in the multi-day search band. -/
theorem earnings_marker_exact_attach
    (series : List (Int × Rat)) (eDay : Int) (c : Rat)
    (startMs endMs : Int) (q : QEarning)
    (chartData : List ChartPoint) (p : TimePeriod) (m : EarningsMarker)
    (pt0 : ChartPoint)
    (hser : alookup series eDay = some c)
    (hfd : q.fiscalDateEnding = some eDay)
    (hlo : startMs ≤ eDay * msPerDay) (hhi : eDay * msPerDay ≤ endMs)
    (hpos : 0 < c)
    (hm : m.timestamp = m.date * msPerDay)
    (hpt : pt0 ∈ chartData)
    (hts : pt0.timestamp = m.timestamp)
    (huniq : ∀ x ∈ chartData, x.timestamp = m.timestamp → x = pt0) :
    findClosestPrice series eDay = ⟨some 0, c, eDay⟩ ∧
    markerForEarnings series startMs endMs q =
      some ⟨eDay, labelOfDay eDay, c, eDay * msPerDay,
        orNull q.reportedEPS, orNull q.estimatedEPS⟩ ∧
    findMarkerPoint chartData p m = some pt0 := by
  have hfcp := findClosestPrice_exact series eDay c hser
  refine ⟨hfcp, ?_, ?_⟩
  · simp only [markerForEarnings, hfd, hfcp]
    rw [if_pos ⟨hlo, hhi⟩, if_pos hpos]
  · rw [findMarkerPoint]
    obtain ⟨q', hq2, hqts, hqf⟩ :=
      chartMarker_finds p m chartData hm pt0 hts chartData (none, none)
        (fun x hx => hx) (by intro h; simp at h) hpt
    rw [hq2, huniq q' hqf hqts]

/-- Witness for C7 at a one-point series and chart whose date equals the
earnings date (day 20000). -/
theorem earnings_marker_exact_attach_witness :
    (alookup [((20000 : Int), (150 : Rat))] 20000 = some 150) ∧
    ((⟨some 20000, some 20003, some "1.10", some "1.20"⟩ :
        QEarning).fiscalDateEnding = some 20000) ∧
    ((0 : Int) ≤ 20000 * msPerDay) ∧
    ((20000 : Int) * msPerDay ≤ 2000000000000) ∧
    ((0 : Rat) < 150) ∧
    ((⟨20000, "Q1 FY24", 150, 20000 * 86400000, none, none⟩ :
        EarningsMarker).timestamp =
      (⟨20000, "Q1 FY24", 150, 20000 * 86400000, none, none⟩ :
        EarningsMarker).date * msPerDay) ∧
    ((⟨150, 20000 * 86400000⟩ : ChartPoint) ∈
      [(⟨150, 20000 * 86400000⟩ : ChartPoint)]) ∧
    ((⟨150, 20000 * 86400000⟩ : ChartPoint).timestamp =
      (⟨20000, "Q1 FY24", 150, 20000 * 86400000, none, none⟩ :
        EarningsMarker).timestamp) ∧
    (findClosestPrice [((20000 : Int), (150 : Rat))] 20000 =
      ⟨some 0, 150, 20000⟩ ∧
    markerForEarnings [((20000 : Int), (150 : Rat))] 0 2000000000000
        ⟨some 20000, some 20003, some "1.10", some "1.20"⟩ =
      some ⟨20000, labelOfDay 20000, 150, 20000 * msPerDay,
        orNull (some "1.20"), orNull (some "1.10")⟩ ∧
    findMarkerPoint [(⟨150, 20000 * 86400000⟩ : ChartPoint)] .m6
        ⟨20000, "Q1 FY24", 150, 20000 * 86400000, none, none⟩ =
      some ⟨150, 20000 * 86400000⟩) :=
  ⟨by decide, by decide, by decide, by decide, by decide, by decide,
   by decide, by decide,
   earnings_marker_exact_attach [((20000 : Int), (150 : Rat))] 20000 150
     0 2000000000000 ⟨some 20000, some 20003, some "1.10", some "1.20"⟩
     [⟨150, 20000 * 86400000⟩] .m6
     ⟨20000, "Q1 FY24", 150, 20000 * 86400000, none, none⟩
     ⟨150, 20000 * 86400000⟩
     (by decide) (by decide) (by decide) (by decide) (by decide)
     (by decide) (by decide) (by decide) (by decide)⟩

/-- C5 (amended): every route that authenticates — stock quote, earnings
lookup, chart data, earnings markers, earnings calendar, the three
watchlist CRUD operations, analysis generation, and the watchlist batch
refresh — answers an unauthenticated request with a uniform 401
`Unauthorized` response and makes no upstream or database call at all. -/
theorem unauth_short_circuits :
    (∀ t k pr, stockQuoteRouteGET none t k pr =
      (⟨401, some "Unauthorized"⟩, [])) ∧
    (∀ t k o e c, earningsLookupRouteGET none t k o e c =
      (⟨401, some "Unauthorized"⟩, [])) ∧
    (∀ t p k now pr, chartDataRouteGET none t p k now pr =
      (⟨401, some "Unauthorized", []⟩, [])) ∧
    (∀ t p k now f s, earningsDatesRouteGET none t p k now f s =
      (⟨401, some "Unauthorized", []⟩, [])) ∧
    (∀ k y m db, calendarEarningsRouteGET none k y m db =
      (⟨401, some "Unauthorized"⟩, [])) ∧
    (∀ db, watchlistRouteGET none db = (⟨401, some "Unauthorized"⟩, [])) ∧
    (∀ t c ex ie, watchlistRoutePOST none t c ex ie =
      (⟨401, some "Unauthorized"⟩, [])) ∧
    (∀ t de, watchlistRouteDELETE none t de =
      (⟨401, some "Unauthorized"⟩, [])) ∧
    (∀ t g, insightsRoutePOST none t g = (⟨401, some "Unauthorized"⟩, [])) ∧
    (∀ w k, watchlistRefreshRoutePOST none w k =
      (⟨401, some "Unauthorized"⟩, [])) :=
  ⟨fun _ _ _ => rfl, fun _ _ _ _ _ => rfl, fun _ _ _ _ _ => rfl,
   fun _ _ _ _ _ _ => rfl, fun _ _ _ _ => rfl, fun _ => rfl,
   fun _ _ _ _ => rfl, fun _ _ => rfl, fun _ _ => rfl, fun _ _ => rfl⟩

/-- C5, counterexample to the claim as stated: two application routes
never authenticate.  The ticker-search route answers an unauthenticated
request with 200 after making an upstream SYMBOL_SEARCH call — so
neither the 401-equivalent response nor the no-upstream-call guarantee
holds for it — and the generation-status route answers an
unauthenticated poll with 200; the logo proxy likewise fetches its
upstream providers without any authentication check. -/
theorem unauth_routes_make_calls :
    tickerSearchRouteGET (some "apple") true (fun _ => ⟨none, none, none⟩) =
      (⟨200, none⟩, ["SYMBOL_SEARCH/apple"]) ∧
    ((⟨200, none⟩ : ApiResponse).httpStatus ≠ 401) ∧
    (["SYMBOL_SEARCH/apple"] ≠ ([] : List String)) ∧
    statusRouteGET [] (some "abc") = ⟨200, none, some ""⟩ ∧
    logoRouteGET (some "aapl") false false true =
      (⟨200, none⟩, ["clearbit/aapl"]) := by
  refine ⟨by decide, by decide, by decide, by decide, by decide⟩
